import Mathlib

/-!
Verification of the Powerball acquisition pipeline (`backend/scraper.py`).

The pipeline is shallowly embedded: pure Python logic is translated to
executable Lean functions.  External effects are modelled as explicit inputs:

* HTTP/regex/BeautifulSoup extraction results are the fields of per-source
  "page" structures (the regex engine is an external library; its match
  results are the inputs to the logic verified here);
* `response.json()` payloads are modelled by the `JVal` inductive;
* `datetime.now()` is the `today` field of the environment;
* the `random` module is an oracle stream of naturals (`Rng`); each primitive
  (`randint`, `sample`, `choices`) consumes values from the stream;
* Python floats are modelled as exact rationals (`Rat`);
* exceptions are modelled by `PyResult`/`Except`; the tenacity retry
  decorator (`stop_after_attempt(3)`, retrying only the httpx
  network/timeout classes) is the `retryCall` function.
-/

namespace Scraper

/-! ### Python-style results and call outcomes -/

/-- Result of running a piece of Python code: a value, or a raised exception. -/
inductive PyResult (α : Type) where
  | ok (a : α)
  | exn
deriving DecidableEq

/-- Outcome of one network attempt against a source: a transient
httpx network/timeout error (retried by tenacity), any other raised
exception (not retried), or a successfully transported value. -/
inductive CallOutcome (α : Type) where
  | transient
  | raise
  | value (a : α)

/-- One run of a tenacity-wrapped call: `i` is the index of the next attempt,
the fuel is the number of attempts still allowed.  Only `.transient`
outcomes are retried; the pair returned is (number of calls made, result).
Exhausting the attempt budget re-raises (tenacity's RetryError). -/
def retryGo (f : Nat → CallOutcome α) (i : Nat) : Nat → Nat × PyResult α
  | 0 => (i, .exn)
  | n + 1 =>
    match f i with
    | .value a => (i + 1, .ok a)
    | .raise => (i + 1, .exn)
    | .transient => if n = 0 then (i + 1, .exn) else retryGo f (i + 1) n

/-- `@retry(stop=stop_after_attempt(maxA), retry=retry_if_exception_type(httpx...))`. -/
def retryCall (maxA : Nat) (f : Nat → CallOutcome α) : Nat × PyResult α :=
  retryGo f 0 maxA

/-! ### Character-list utilities (Python `str` operations) -/

/-- Does `p` occur as a prefix of `l`? -/
def startsList : List Char → List Char → Bool
  | [], _ => true
  | _ :: _, [] => false
  | p :: ps, c :: cs => p == c && startsList ps cs

/-- Does `pat` occur anywhere in `l` (Python `pat in s`)? -/
def containsCh (pat : List Char) : List Char → Bool
  | [] => startsList pat []
  | c :: rest => startsList pat (c :: rest) || containsCh pat rest

/-- Remove every left-to-right non-overlapping occurrence of one of `pats`
(Python `s.replace(p, '')`, `re.sub(p, '', s)`); fuel-driven scan. -/
def removePatsCh (pats : List (List Char)) : Nat → List Char → List Char
  | 0, l => l
  | _, [] => []
  | fuel + 1, c :: rest =>
    match pats.find? (fun p => p ≠ [] && startsList p (c :: rest)) with
    | some p => removePatsCh pats fuel (List.drop (p.length - 1) rest)
    | none => c :: removePatsCh pats fuel rest

/-- Split on a (non-empty) separator, Python `s.split(sep)`. -/
def splitOnCh (sep : List Char) : Nat → List Char → List Char → List (List Char)
  | 0, l, acc => [acc.reverse ++ l]
  | _, [], acc => [acc.reverse]
  | fuel + 1, c :: rest, acc =>
    if sep ≠ [] && startsList sep (c :: rest) then
      acc.reverse :: splitOnCh sep fuel (List.drop (sep.length - 1) rest) []
    else
      splitOnCh sep fuel rest (c :: acc)

/-- Strip leading and trailing whitespace (Python `s.strip()`). -/
def trimCh (l : List Char) : List Char :=
  ((l.dropWhile Char.isWhitespace).reverse.dropWhile Char.isWhitespace).reverse

/-- `String` wrappers. -/
def strContains (s pat : String) : Bool := containsCh pat.data s.data

def removeAllStr (pat s : String) : String :=
  String.mk (removePatsCh [pat.data] s.data.length s.data)

def removeMillionAnyCase (s : String) : String :=
  String.mk (removePatsCh ["Million".data, "million".data] s.data.length s.data)

def removeBillionAnyCase (s : String) : String :=
  String.mk (removePatsCh ["Billion".data, "billion".data] s.data.length s.data)

def splitStr (sep s : String) : List String :=
  (splitOnCh sep.data s.data.length s.data []).map String.mk

def strTrim (s : String) : String := String.mk (trimCh s.data)

/-! ### Numeric parsing (Python `int(...)`, `float(...)`) -/

def digitsToNat (cs : List Char) : Nat :=
  cs.foldl (fun a c => a * 10 + (c.toNat - 48)) 0

/-- All-digit, non-empty parse of a natural. -/
def parseNatAll (cs : List Char) : Option Nat :=
  if cs ≠ [] && cs.all Char.isDigit then some (digitsToNat cs) else none

def parseNatStr (s : String) : Option Nat := parseNatAll s.data

/-- Python `int(s)`: surrounding whitespace, optional sign, digits.
(Underscored literals and other exotic int syntax are not modelled.) -/
def intOfStr (s : String) : Option Int :=
  match trimCh s.data with
  | '+' :: rest => (parseNatAll rest).map Int.ofNat
  | '-' :: rest => (parseNatAll rest).map (fun n => -(n : Int))
  | t => (parseNatAll t).map Int.ofNat

/-- Exact-rational product.  `Rat.mul` is `@[irreducible]`, so the
kernel-computable `mkRat` form is used; `ratMul_eq` below shows it agrees
with `*`.  This models Python float multiplication exactly (the float
rounding of the handful of products the scraper performs is immaterial to
every property stated here, which only needs signs and exact decimals). -/
def ratMul (a b : Rat) : Rat := mkRat (a.num * b.num) (a.den * b.den)

/-- Exact-rational sum (same kernel-computability rationale as `ratMul`). -/
def ratAdd (a b : Rat) : Rat :=
  mkRat (a.num * (b.den : Int) + b.num * (a.den : Int)) (a.den * b.den)

/-- Python `float(s)` restricted to plain decimal literals
(`d+`, `d+.d*`, `.d+`, optional sign, surrounding whitespace); exponent,
`inf` and `nan` forms are not modelled — none appear in the scraped text. -/
def ratOfStr (s : String) : Option Rat :=
  let t := trimCh s.data
  let sign : Int × List Char :=
    match t with
    | '+' :: r => (1, r)
    | '-' :: r => (-1, r)
    | _ => (1, t)
  match splitOnCh ['.'] sign.2.length sign.2 [] with
  | [ip] => (parseNatAll ip).map (fun n => mkRat (sign.1 * n) 1)
  | [ip, fp] =>
    if (ip ≠ [] || fp ≠ []) && ip.all Char.isDigit && fp.all Char.isDigit then
      some (mkRat (sign.1 * (digitsToNat ip * 10 ^ fp.length + digitsToNat fp))
                  (10 ^ fp.length))
    else none
  | _ => none

/-- Python `int(float)`: truncation toward zero (`Int.tdiv` of the reduced
numerator by the positive denominator). -/
def pyTrunc (q : Rat) : Int := q.num.tdiv (q.den : Int)

/-- Python `str.zfill(2)`. -/
def zfill2 (cs : List Char) : List Char :=
  if 2 ≤ cs.length then cs else List.replicate (2 - cs.length) '0' ++ cs

/-! ### JSON values (payloads of `response.json()`) -/

/-- Shape of a decoded JSON payload, as manipulated by the Python dict code. -/
inductive JVal where
  | jnull
  | jbool (b : Bool)
  | jnum (q : Rat)
  | jstr (s : String)
  | jarr (xs : List JVal)
  | jobj (fields : List (String × JVal))

/-- Python truthiness of a JSON value. -/
def JVal.truthy : JVal → Bool
  | .jnull => false
  | .jbool b => b
  | .jnum q => q ≠ 0
  | .jstr s => s ≠ ""
  | .jarr xs => !xs.isEmpty
  | .jobj fs => !fs.isEmpty

def jlookup (fs : List (String × JVal)) (k : String) : Option JVal :=
  (fs.find? (fun p => p.1 == k)).map (fun p => p.2)

/-- Dict subscript that the surrounding Python wraps in a broad `try`:
missing key or non-dict receiver is a raised error, modelled as `none`. -/
def jsubO : JVal → String → Option JVal
  | .jobj fs, k => jlookup fs k
  | _, _ => none

/-- Python `k in v` for a string key: key test on dicts, element equality on
lists (a string never equals a non-string), substring test on strings, and a
`TypeError` on non-iterables. -/
def containsKeyE : JVal → String → PyResult Bool
  | .jobj fs, k => .ok (fs.any (fun p => p.1 == k))
  | .jarr xs, k =>
    .ok (xs.any (fun v => match v with | .jstr s => s == k | _ => false))
  | .jstr s, k => .ok (strContains s k)
  | _, _ => .exn

/-- Python `v[k]` with a string key, raising on non-dicts / missing keys. -/
def subscriptE : JVal → String → PyResult JVal
  | .jobj fs, k => match jlookup fs k with | some v => .ok v | none => .exn
  | _, _ => .exn

/-- Python `v[0]`: first element of a list, first character of a string,
`TypeError`/`KeyError` otherwise (dict subscript with int key misses the
string keys produced by JSON). -/
def index0E : JVal → PyResult JVal
  | .jarr (x :: _) => .ok x
  | .jstr s => match s.data with | c :: _ => .ok (.jstr (String.mk [c])) | [] => .exn
  | _ => .exn

/-- Python `for x in v`. -/
def jiterE : JVal → PyResult (List JVal)
  | .jarr xs => .ok xs
  | .jstr s => .ok (s.data.map (fun c => JVal.jstr (String.mk [c])))
  | .jobj fs => .ok (fs.map (fun p => JVal.jstr p.1))
  | _ => .exn

/-- Python error classes that the scraper distinguishes:
`except ValueError` clauses catch `valueE` but not `typeE`. -/
inductive PyErr where
  | valueE
  | typeE

/-- Python `int(v)` on a JSON value. -/
def pyIntE : JVal → Except PyErr Int
  | .jnum q => .ok (pyTrunc q)
  | .jstr s => match intOfStr s with | some n => .ok n | none => .error .valueE
  | .jbool b => .ok (if b then 1 else 0)
  | _ => .error .typeE

/-- Python `str(v)`.  Integral numbers print exactly; the remaining shapes
only need to fail any later numeric parse, which their placeholders do. -/
def pyStr : JVal → String
  | .jstr s => s
  | .jnum q => if q.den = 1 then toString q.num else toString q.num ++ "/" ++ toString q.den
  | .jbool b => if b then "True" else "False"
  | .jnull => "None"
  | .jarr _ => "<list>"
  | .jobj _ => "<dict>"

/-! ### Calendar dates -/

def isLeapYear (y : Nat) : Bool := (y % 4 == 0 && y % 100 != 0) || y % 400 == 0

def daysInMonth (y m : Nat) : Nat :=
  if m = 2 then (if isLeapYear y then 29 else 28)
  else if m = 4 ∨ m = 6 ∨ m = 9 ∨ m = 11 then 30
  else 31

/-- A calendar date, as handled by `datetime`. -/
structure SimpleDate where
  year : Nat
  month : Nat
  day : Nat

def validYMD (y m d : Nat) : Prop :=
  1 ≤ m ∧ m ≤ 12 ∧ 1 ≤ d ∧ d ≤ daysInMonth y m

instance (y m d : Nat) : Decidable (validYMD y m d) := by
  unfold validYMD; infer_instance

def validDate (dt : SimpleDate) : Prop := validYMD dt.year dt.month dt.day

instance (dt : SimpleDate) : Decidable (validDate dt) := by
  unfold validDate; infer_instance

/-- `date - timedelta(days=1)`. -/
def subDay (dt : SimpleDate) : SimpleDate :=
  if 2 ≤ dt.day then ⟨dt.year, dt.month, dt.day - 1⟩
  else if 2 ≤ dt.month then ⟨dt.year, dt.month - 1, daysInMonth dt.year (dt.month - 1)⟩
  else ⟨dt.year - 1, 12, 31⟩

/-- `date - timedelta(days=n)`. -/
def subDays (dt : SimpleDate) : Nat → SimpleDate
  | 0 => dt
  | n + 1 => subDays (subDay dt) n

def pad2 (n : Nat) : String := if n < 10 then "0" ++ toString n else toString n

/-- `strftime("%Y-%m-%d")`. -/
def isoStr (y m d : Nat) : String := toString y ++ "-" ++ pad2 m ++ "-" ++ pad2 d

def isoFmt (dt : SimpleDate) : String := isoStr dt.year dt.month dt.day

/-- The string is the ISO rendering of some real calendar date
(§3 invariant 4 of the spec). -/
def isRealDateISO (s : String) : Prop :=
  ∃ y m d, validYMD y m d ∧ s = isoStr y m d

/-! #### `strptime` for the formats the scraper tries -/

def monthNames : List String :=
  ["January", "February", "March", "April", "May", "June", "July",
   "August", "September", "October", "November", "December"]

def monthAbbrs : List String :=
  ["Jan", "Feb", "Mar", "Apr", "May", "Jun", "Jul", "Aug", "Sep", "Oct", "Nov", "Dec"]

def weekdayNames : List String :=
  ["Monday", "Tuesday", "Wednesday", "Thursday", "Friday", "Saturday", "Sunday"]

def lowerStr (s : String) : String := String.mk (s.data.map Char.toLower)

/-- `strptime` month-name match (case-insensitive), 1-based index. -/
def monthIdx (names : List String) (s : String) : Option Nat :=
  (names.findIdx? (fun n => lowerStr n == lowerStr s)).map (fun i => i + 1)

/-- Shared tail of the `Month day year` formats: month name from `names`,
all-digit day and year, real-calendar day validation (as `strptime` does). -/
def monthDayYear (names : List String) (mon d y : String) : Option (Nat × Nat × Nat) :=
  match monthIdx names mon with
  | none => none
  | some m =>
    match parseNatStr d, parseNatStr y with
    | some dn, some yn =>
      if 1 ≤ dn ∧ dn ≤ daysInMonth yn m then some (yn, m, dn) else none
    | _, _ => none

/-- `strptime(s, "%B %d, %Y")` (or `%b` with abbreviated names). -/
def fmtCommaDate (names : List String) (s : String) : Option (Nat × Nat × Nat) :=
  match splitStr ", " s with
  | [md, y] =>
    match splitStr " " md with
    | [mon, d] => monthDayYear names mon d y
    | _ => none
  | _ => none

/-- `strptime(s, "%B %d %Y")` (or `%b`). -/
def fmtSpaceDate (names : List String) (s : String) : Option (Nat × Nat × Nat) :=
  match splitStr " " s with
  | [mon, d, y] => monthDayYear names mon d y
  | _ => none

/-- The powerball.com date-format loop: `"%B %d, %Y"`, `"%b %d, %Y"`,
`"%B %d %Y"`, `"%b %d %Y"`, tried in order. -/
def parsePbDate (s : String) : Option (Nat × Nat × Nat) :=
  match fmtCommaDate monthNames s with
  | some r => some r
  | none =>
    match fmtCommaDate monthAbbrs s with
    | some r => some r
    | none =>
      match fmtSpaceDate monthNames s with
      | some r => some r
      | none => fmtSpaceDate monthAbbrs s

/-- `strptime(s, "%A, %B %d, %Y")` — the CalLottery web date format. -/
def parseLongDateA (s : String) : Option (Nat × Nat × Nat) :=
  match splitStr ", " s with
  | [w, md, y] =>
    if weekdayNames.any (fun n => lowerStr n == lowerStr w) then
      match splitStr " " md with
      | [mon, d] => monthDayYear monthNames mon d y
      | _ => none
    else none
  | _ => none

/-! ### The Draw record -/

/-- One entry of the CA API prize breakdown; `winners`/`prize` keep the raw
JSON values exactly as the Python dict does. -/
structure PrizeEntry where
  tier : String
  winners : JVal
  prize : JVal

/-- The draw dict produced by every source path.  Keys absent on a given
path keep their Python `dict.get` defaults. -/
structure Draw where
  draw_number : Int
  draw_date : String
  white_balls : List Int
  powerball : Int
  jackpot_amount : Rat
  winners : Int
  source : String
  prize_breakdown : List PrizeEntry := []
  total_winners : Int := 0

/-! ### `_parse_ca_api_draw` -/

/-- `draw_date` normalisation inside `_parse_ca_api_draw`: split at `'T'`,
else re-assemble a `MM/DD/YYYY` date (a slash date that does not unpack
into exactly three parts raises, failing the whole parse), else unchanged. -/
def normCaDate (s : String) : Option String :=
  if strContains s "T" then some ((splitStr "T" s).headD "")
  else if strContains s "/" then
    match splitStr "/" s with
    | [m, d, y] =>
      some (y ++ "-" ++ String.mk (zfill2 m.data) ++ "-" ++ String.mk (zfill2 d.data))
    | _ => none
  else some s

/-- `int(draw_data['WinningNumbers'][str(i)]['Number'])`; any missing key
or failed `int` raises, aborting the parse. -/
def getBall (wn : JVal) (i : Nat) : Option Int :=
  match jsubO wn (toString i) with
  | none => none
  | some slot =>
    match jsubO slot "Number" with
    | none => none
    | some v =>
      match pyIntE v with
      | .error _ => none
      | .ok b => some b

/-- The `for i in range(5)` white-ball extraction loop. -/
def getBalls5 (wn : JVal) : Option (List Int) :=
  match getBall wn 0, getBall wn 1, getBall wn 2, getBall wn 3, getBall wn 4 with
  | some a, some b, some c, some d, some e => some [a, b, c, d, e]
  | _, _, _, _, _ => none

/-- The fixed tier table of `_parse_ca_api_draw`. -/
def prizeTiers : List (String × String) :=
  [("5 + Powerball", "1"), ("5", "2"), ("4 + Powerball", "3"), ("4", "4"),
   ("3 + Powerball", "5"), ("3", "6"), ("2 + Powerball", "7"),
   ("1 + Powerball", "8"), ("Powerball", "9")]

/-- Jackpot extraction for tier "1":
`float(str(amount).replace("$", "").replace(",", ""))`, `ValueError` → keep 0. -/
def tierJackpot (amt : JVal) : Rat :=
  match ratOfStr (removeAllStr "," (removeAllStr "$" (pyStr amt))) with
  | some v => v
  | none => 0

/-- The per-tier loop of `_parse_ca_api_draw`.  Returns
(breakdown, jackpot, winners); `none` models an uncaught error (the
`.get` attribute error on a non-dict prize, or a `TypeError` from `int`),
which the enclosing broad `except` turns into a failed parse. -/
def processTiers (pz : JVal) : List (String × String) → Option (List PrizeEntry × Rat × Int)
  | [] => some ([], 0, 0)
  | (nm, k) :: rest =>
    match containsKeyE pz k with
    | .exn => none
    | .ok false => processTiers pz rest
    | .ok true =>
      match jsubO pz k with
      | none => none
      | some pi =>
        match pi with
        | .jobj _ =>
          let cnt := (jsubO pi "Count").getD (.jnum 0)
          let amt := (jsubO pi "Amount").getD (.jstr "$0")
          let entry : PrizeEntry := ⟨nm, cnt, amt⟩
          let jackHere : Rat :=
            if k = "1" then
              match jsubO pi "Amount" with
              | some a => tierJackpot a
              | none => 0
            else 0
          -- `int(prize_info["Count"])` inside `try/except ValueError`:
          -- a ValueError keeps 0, a TypeError aborts the whole parse.
          let winHere : Except PyErr Int :=
            if k = "1" then
              match jsubO pi "Count" with
              | some c =>
                match pyIntE c with
                | .ok n => .ok n
                | .error .valueE => .ok 0
                | .error .typeE => .error .typeE
              | none => .ok 0
            else .ok 0
          match winHere with
          | .error _ => none
          | .ok w =>
            match processTiers pz rest with
            | none => none
            | some (entries, jackRest, winRest) =>
              some (entry :: entries,
                    (if k = "1" then jackHere else jackRest),
                    (if k = "1" then w else winRest))
        | _ => none

/-- `total_winners += int(prize["winners"])`: any `int` failure escapes to
the enclosing broad `except` and fails the parse. -/
def totalWinnersAux : List PrizeEntry → Option Int
  | [] => some 0
  | e :: rest =>
    match pyIntE e.winners with
    | .error _ => none
    | .ok n =>
      match totalWinnersAux rest with
      | none => none
      | some t => some (n + t)

/-- `_parse_ca_api_draw` (scraper.py lines 170-257): the whole body runs
under `except Exception: return None`; non-string `DrawDate` payloads are
rejected here (modelling choice — the date field is kept as a `String`). -/
def parse_ca_api_draw (j : JVal) : Option Draw :=
  match jsubO j "DrawNumber" with
  | none => none
  | some dnv =>
    match pyIntE dnv with
    | .error _ => none
    | .ok dn =>
      match jsubO j "DrawDate" with
      | none => none
      | some ddv =>
        match ddv with
        | .jstr ds =>
          match normCaDate ds with
          | none => none
          | some dd =>
            match jsubO j "WinningNumbers" with
            | none => none
            | some wn =>
              match getBalls5 wn with
              | none => none
              | some wb =>
                match jsubO wn "5" with
                | none => none
                | some pbSlot =>
                  match jsubO pbSlot "Number" with
                  | none => none
                  | some pbv =>
                    match pyIntE pbv with
                    | .error _ => none
                    | .ok pb =>
                      -- `if 'Prizes' in draw_data and isinstance(draw_data['Prizes'], dict)`:
                      -- on the dict `j`, equivalent to its lookup yielding a dict value.
                      match
                        (match jsubO j "Prizes" with
                         | some (.jobj fs) => processTiers (.jobj fs) prizeTiers
                         | _ => some ([], 0, 0)) with
                      | none => none
                      | some (entries, jack, win) =>
                        match totalWinnersAux entries with
                        | none => none
                        | some tot =>
                          some { draw_number := dn, draw_date := dd,
                                 white_balls := wb, powerball := pb,
                                 jackpot_amount := jack, winners := win,
                                 prize_breakdown := entries,
                                 total_winners := tot, source := "ca_api" }
        | _ => none

/-! ### Jackpot (currency) normalisation -/

/-- CalLottery web jackpot parsing (scraper.py lines 326-341): strip `$`
and `,`, then a case-SENSITIVE test for `Million`/`Billion`; a failed
`float` is caught and degrades to 0. -/
def parseJackpotCaWeb (s : String) : Rat :=
  let t := removeAllStr "," (removeAllStr "$" s)
  if strContains t "Million" then
    match ratOfStr (strTrim (removeAllStr "Million" t)) with
    | some v => ratMul v (mkRat 1000000 1)
    | none => 0
  else if strContains t "Billion" then
    match ratOfStr (strTrim (removeAllStr "Billion" t)) with
    | some v => ratMul v (mkRat 1000000000 1)
    | none => 0
  else
    match ratOfStr t with
    | some v => v
    | none => 0

/-- powerball.com jackpot parsing (lines 509-525 and 599-615): strip `$`
and `,`, test for `Million` or `million` (`re.sub('[Mm]illion')` removal),
likewise `Billion`; a failed `float` degrades to 0. -/
def parseJackpotPb (s : String) : Rat :=
  let t := removeAllStr "," (removeAllStr "$" s)
  if strContains t "Million" || strContains t "million" then
    match ratOfStr (strTrim (removeMillionAnyCase t)) with
    | some v => ratMul v (mkRat 1000000 1)
    | none => 0
  else if strContains t "Billion" || strContains t "billion" then
    match ratOfStr (strTrim (removeBillionAnyCase t)) with
    | some v => ratMul v (mkRat 1000000000 1)
    | none => 0
  else
    match ratOfStr t with
    | some v => v
    | none => 0

/-! ### `_fetch_from_ca_api` body (after `response.json()`) -/

/-- Lines 162-168: the guard `if not data or 'PreviousDraws' not in data or
not data['PreviousDraws']` (each step can raise a `TypeError` on ill-shaped
payloads), then parse of the first entry. -/
def caApiLatestBody (data : JVal) : PyResult (Option Draw) :=
  if !data.truthy then .ok none
  else
    match containsKeyE data "PreviousDraws" with
    | .exn => .exn
    | .ok false => .ok none
    | .ok true =>
      match subscriptE data "PreviousDraws" with
      | .exn => .exn
      | .ok pd =>
        if !pd.truthy then .ok none
        else
          match index0E pd with
          | .exn => .exn
          | .ok item => .ok (parse_ca_api_draw item)

/-! ### `_fetch_from_ca_web` body (after BeautifulSoup extraction) -/

/-- Result of the winner-element inspection: the `(\d+)\s+winner` regex
match on the lowercased text, and whether the word `winner` occurs at all. -/
structure CaWebWinners where
  countMatch : Option Nat
  hasWinnerWord : Bool

/-- What the CSS selectors of `_fetch_from_ca_web` extract from the page:
each field is the (stripped) text of the corresponding element, `none` when
the selector found nothing.  `drawNumMatch` is the first digit run of the
draw-number text. -/
structure CaWebPage where
  drawSection : Bool
  dateText : Option String
  drawNumMatch : Option Nat
  numberTexts : List String
  jackpotText : Option String
  winnersElem : Option CaWebWinners

/-- `int(elem.text.strip())` over the number elements; a `ValueError`
propagates out of the fetch (it is not an httpx error, so not retried). -/
def parseIntsE : List String → PyResult (List Int)
  | [] => .ok []
  | s :: rest =>
    match intOfStr s with
    | none => .exn
    | some n =>
      match parseIntsE rest with
      | .exn => .exn
      | .ok ns => .ok (n :: ns)

/-- The date handling of `_fetch_from_ca_web` (lines 286-295): a date that
`strptime("%A, %B %d, %Y")` rejects is kept in its original raw form. -/
def caWebDate (p : CaWebPage) : String :=
  match parseLongDateA (p.dateText.getD "Unknown Date") with
  | some (y, m, d) => isoStr y m d
  | none => p.dateText.getD "Unknown Date"

/-- The winner extraction of `_fetch_from_ca_web` (lines 343-354). -/
def caWebWinnersCount (p : CaWebPage) : Int :=
  match p.winnersElem with
  | none => 0
  | some w =>
    match w.countMatch with
    | some n => (n : Int)
    | none => if w.hasWinnerWord then 1 else 0

/-- `_fetch_from_ca_web` (lines 264-368) after the HTTP/soup boundary. -/
def caWebBody (p : CaWebPage) : PyResult (Option Draw) :=
  if !p.drawSection then .ok none
  else
    match parseIntsE p.numberTexts with
    | .exn => .exn
    | .ok nums =>
      if nums.dropLast.length = 5 ∧ 0 < (nums.getLast?).getD 0 then
        .ok (some { draw_number := ((p.drawNumMatch.getD 0 : Nat) : Int),
                    draw_date := caWebDate p,
                    white_balls := nums.dropLast,
                    powerball := (nums.getLast?).getD 0,
                    jackpot_amount := parseJackpotCaWeb (p.jackpotText.getD "$0"),
                    winners := caWebWinnersCount p,
                    source := "ca_web" })
      else .ok none

/-! ### `_fetch_from_powerball_main` body (after the HTTP boundary) -/

/-- The regex/soup extraction results of `_fetch_from_powerball_main`:
`dateMatch` is group 1 of the date pattern; `drawNumMatch` group 1 of the
draw-number pattern (digits); `numbersMatch` groups 1-6 of the six-number
pattern (each `\d{1,2}`); `soupNumbers` the texts of the selected number
elements; `allNumbers` the `\b\d{1,2}\b` findall; `jackpotMatch` group 0 of
the jackpot pattern. -/
structure PbMainPage where
  dateMatch : Option String
  drawNumMatch : Option Nat
  numbersMatch : Option (Nat × Nat × Nat × Nat × Nat × Nat)
  soupNumbers : List String
  allNumbers : List Nat
  jackpotMatch : Option String

/-- The five-element list comprehension over the soup number elements:
all-or-nothing assignment, mirroring Python list-comprehension semantics. -/
def parse5 (l : List String) : Option (List Int) :=
  match l with
  | a :: b :: c :: d :: e :: _ =>
    match intOfStr a, intOfStr b, intOfStr c, intOfStr d, intOfStr e with
    | some x1, some x2, some x3, some x4, some x5 => some [x1, x2, x3, x4, x5]
    | _, _, _, _, _ => none
  | _ => none

/-- Lines 492-502: scan for the first window of six one/two-digit numbers
whose first five lie in [1,69] and whose sixth lies in [1,26]. -/
def findCluster : List Nat → Option (List Int × Int)
  | a :: b :: c :: d :: e :: f :: rest =>
    if [a, b, c, d, e].all (fun x => 1 ≤ x && x ≤ 69) && (1 ≤ f && f ≤ 26) then
      some ([(a : Int), (b : Int), (c : Int), (d : Int), (e : Int)], (f : Int))
    else findCluster (b :: c :: d :: e :: f :: rest)
  | _ => none

/-- The date extraction of `_fetch_from_powerball_main` (lines 446-459):
an absent or unparseable date silently stays at today's date. -/
def pbMainDate (today : SimpleDate) (p : PbMainPage) : String :=
  match p.dateMatch with
  | none => isoFmt today
  | some s =>
    match parsePbDate s with
    | some (y, m, d) => isoStr y m d
    | none => isoFmt today

/-- The three-stage ball extraction of `_fetch_from_powerball_main`
(lines 469-502): regex groups, then soup elements, then the free number
cluster, each later stage attempted only while balls or powerball are
still missing/falsy.  The partial-assignment semantics of a failing
powerball conversion after a successful ball comprehension is preserved. -/
def pbMainNumbers (p : PbMainPage) : List Int × Int :=
  let first : List Int × Int :=
    match p.numbersMatch with
    | some (a, b, c, d, e, f) =>
      ([(a : Int), (b : Int), (c : Int), (d : Int), (e : Int)], (f : Int))
    | none => ([], 0)
  let second : List Int × Int :=
    if first.1.isEmpty || first.2 = 0 then
      if 6 ≤ p.soupNumbers.length then
        match parse5 p.soupNumbers with
        | some ws =>
          (ws, match intOfStr (p.soupNumbers.getD 5 "") with
               | some n => n
               | none => first.2)
        | none => first
      else first
    else first
  if second.1.isEmpty || second.2 = 0 then
    match findCluster p.allNumbers with
    | some r => r
    | none => second
  else second

/-- `_fetch_from_powerball_main` (lines 419-541) after the HTTP boundary. -/
def pbMainBody (today : SimpleDate) (p : PbMainPage) : Option Draw :=
  if (pbMainNumbers p).1.length = 5 ∧ 0 < (pbMainNumbers p).2 then
    some { draw_number := ((p.drawNumMatch.getD 0 : Nat) : Int),
           draw_date := pbMainDate today p,
           white_balls := (pbMainNumbers p).1, powerball := (pbMainNumbers p).2,
           jackpot_amount :=
             match p.jackpotMatch with
             | some t => parseJackpotPb t
             | none => 0,
           winners := 0, source := "powerball.com" }
  else none

/-! ### `_fetch_from_powerball_history` body -/

/-- Groups of the broad history regex when it matched: date text (group 1),
optional draw number (group 2), five ball digits (groups 3-7), the
powerball digits (group 8). -/
structure PbHistMatch where
  dateStr : String
  drawNum : Option Nat
  b1 : Nat
  b2 : Nat
  b3 : Nat
  b4 : Nat
  b5 : Nat
  pb : Nat

structure PbHistPage where
  found : Option PbHistMatch
  jackpotMatch : Option String

/-- `_fetch_from_powerball_history` (lines 548-631).  When every date
format fails, `draw_date` is never assigned and the later dict construction
raises `UnboundLocalError` (not caught by the `(ValueError, IndexError)`
handler), modelled as `.exn`. -/
def pbHistBody (p : PbHistPage) : PyResult (Option Draw) :=
  match p.found with
  | none => .ok none
  | some m =>
    match parsePbDate m.dateStr with
    | none => .exn
    | some (y, mo, d) =>
      .ok (some { draw_number := ((m.drawNum.getD 0 : Nat) : Int),
                  draw_date := isoStr y mo d,
                  white_balls :=
                    [(m.b1 : Int), (m.b2 : Int), (m.b3 : Int), (m.b4 : Int), (m.b5 : Int)],
                  powerball := (m.pb : Int),
                  jackpot_amount :=
                    match p.jackpotMatch with
                    | some t => parseJackpotPb t
                    | none => 0,
                  winners := 0, source := "powerball.com" })

/-! ### Randomness oracle and the mock generators -/

/-- The `random` module as an oracle stream: each primitive consumes
values at the current position. -/
structure Rng where
  stream : Nat → Nat
  pos : Nat

def rngNext (r : Rng) : Nat × Rng := (r.stream r.pos, ⟨r.stream, r.pos + 1⟩)

/-- `random.randint(a, b)` (both ends inclusive). -/
def randint (a b : Nat) (r : Rng) : Nat × Rng :=
  let s := rngNext r
  (a + s.1 % (b - a + 1), s.2)

/-- `random.choices([0, 1, 2], weights=...)[0]`: some element of the
population (the weights only shape the distribution, which the oracle
abstracts away). -/
def choose012 (r : Rng) : Nat × Rng :=
  let s := rngNext r
  (s.1 % 3, s.2)

/-- `range(1, 70)` as the sampling population. -/
def pop69 : List Int := (List.range 69).map (fun k => ((k + 1 : Nat) : Int))

/-- `random.sample(l, k)`: `k` distinct positions; each pick removes the
chosen element before the next. -/
def sampleAux (rng : Rng) (l : List Int) : Nat → List Int × Rng
  | 0 => ([], rng)
  | k + 1 =>
    if h : l.length = 0 then ([], rng)
    else
      let s := rngNext rng
      let x := l.get ⟨s.1 % l.length, Nat.mod_lt _ (Nat.pos_of_ne_zero h)⟩
      let rest := sampleAux s.2 (l.erase x) k
      (x :: rest.1, rest.2)

def insertSorted (x : Int) : List Int → List Int
  | [] => [x]
  | y :: ys => if x ≤ y then x :: y :: ys else y :: insertSorted x ys

/-- Python `sorted` on integer lists. -/
def sortInts : List Int → List Int
  | [] => []
  | x :: xs => insertSorted x (sortInts xs)

/-- `sorted(random.sample(range(1, 70), 5))`. -/
def sample69 (rng : Rng) : List Int × Rng :=
  let s := sampleAux rng pop69 5
  (sortInts s.1, s.2)

/-- `_generate_mock_draw` (lines 633-659). -/
def generate_mock_draw (today : SimpleDate) (latest : Int) (rng : Rng) : Draw × Rng :=
  let dnr : Int × Rng :=
    if 0 < latest then (latest + 1, rng)
    else
      let r := randint 1000 2000 rng
      ((r.1 : Int), r.2)
  let wbr := sample69 dnr.2
  let pbr := randint 1 26 wbr.2
  let jmr := randint 50 500 pbr.2
  ({ draw_number := dnr.1, draw_date := isoFmt today, white_balls := wbr.1,
     powerball := (pbr.1 : Int), jackpot_amount := mkRat (jmr.1 * 1000000) 1,
     winners := 0, source := "mock_data" }, jmr.2)

/-- The jackpot of one mock-historical draw: the winner reset
`randint(20, 40) * 1_000_000` when `winners > 0` (consuming a random
draw), otherwise `int(base_amount * growth_factor)` with
`growth_factor = 1 + i * 0.05`. -/
def mockHistJack (i b w : Nat) (rng : Rng) : Rat × Rng :=
  if 0 < w then
    let jr := randint 20 40 rng
    (mkRat (jr.1 * 1000000) 1, jr.2)
  else
    (mkRat (pyTrunc (ratMul (mkRat (b * 1000000) 1)
                            (ratAdd (mkRat 1 1) (ratMul (mkRat i 1) (mkRat 5 100))))) 1,
     rng)

/-- One iteration of the `_generate_mock_historical_draws` loop
(lines 671-720).  The source contains a duplicated generation block whose
first results are overwritten by the second; the first block still
consumes random draws, which is modelled faithfully. -/
def mockHistStep (today : SimpleDate) (start : Int) (rng : Rng) (i : Nat) : Draw × Rng :=
  let r1 := randint 3 4 rng
  let dd := isoFmt (subDays today (i * r1.1))
  -- first (discarded) generation block
  let wbA := sample69 r1.2
  let pbA := randint 1 26 wbA.2
  let bA := randint 20 50 pbA.2
  let wA := choose012 bA.2
  let rngA := if 0 < wA.1 then (randint 20 40 wA.2).2 else wA.2
  -- second generation block (the values actually kept)
  let wbB := sample69 rngA
  let pbB := randint 1 26 wbB.2
  let bB := randint 20 50 pbB.2
  let wB := choose012 bB.2
  let jackr := mockHistJack i bB.1 wB.1 wB.2
  ({ draw_number := start - (i : Int), draw_date := dd, white_balls := wbB.1,
     powerball := (pbB.1 : Int), jackpot_amount := jackr.1,
     winners := (wB.1 : Int), source := "mock_data" }, jackr.2)

/-- The `for i in range(count)` loop of `_generate_mock_historical_draws`. -/
def mockHistAux (today : SimpleDate) (start : Int) (rng : Rng) :
    Nat → Nat → List Draw × Rng
  | _, 0 => ([], rng)
  | i, n + 1 =>
    let step := mockHistStep today start rng i
    let rest := mockHistAux today start step.2 (i + 1) n
    (step.1 :: rest.1, rest.2)

/-- `_generate_mock_historical_draws` (lines 661-722). -/
def generate_mock_historical_draws (today : SimpleDate) (latest : Int)
    (rng : Rng) (count : Nat) : List Draw × Rng :=
  let start : Int := if 0 < latest then latest else 2000
  mockHistAux today start rng 0 count

/-! ### Environment, state, and the fallback orchestrator -/

/-- `self.latest_draw_number`. -/
structure ScraperState where
  latest_draw_number : Int

/-- Instrumentation: how many HTTP calls each latest-draw source received
during one pipeline invocation. -/
structure FetchLog where
  caApi : Nat := 0
  caWeb : Nat := 0
  pbMain : Nat := 0
  pbHist : Nat := 0

/-- The external world of one pipeline invocation: `datetime.now()`'s date
and, for each source, the per-attempt transport outcome. -/
structure Env where
  today : SimpleDate
  caApiCalls : Nat → CallOutcome JVal
  caWebCalls : Nat → CallOutcome CaWebPage
  pbMainCalls : Nat → CallOutcome PbMainPage
  pbHistCalls : Nat → CallOutcome PbHistPage
  histPage : Nat → CallOutcome JVal

/-- `_fetch_from_ca_api` under its retry decorator: (calls made, result).
A non-httpx error raised by the body is not retried. -/
def fetchFromCaApi (env : Env) : Nat × PyResult (Option Draw) :=
  match retryCall 3 env.caApiCalls with
  | (n, .exn) => (n, .exn)
  | (n, .ok data) => (n, caApiLatestBody data)

def fetchFromCaWeb (env : Env) : Nat × PyResult (Option Draw) :=
  match retryCall 3 env.caWebCalls with
  | (n, .exn) => (n, .exn)
  | (n, .ok p) => (n, caWebBody p)

def fetchFromPbMain (env : Env) : Nat × PyResult (Option Draw) :=
  match retryCall 3 env.pbMainCalls with
  | (n, .exn) => (n, .exn)
  | (n, .ok p) => (n, .ok (pbMainBody env.today p))

def fetchFromPbHist (env : Env) : Nat × PyResult (Option Draw) :=
  match retryCall 3 env.pbHistCalls with
  | (n, .exn) => (n, .exn)
  | (n, .ok p) => (n, pbHistBody p)

/-- The terminal mock fallback of `fetch_latest_draw` (lines 89-95). -/
def mockStage (env : Env) (st : ScraperState) (rng : Rng) (log : FetchLog) :
    Draw × ScraperState × Rng × FetchLog :=
  let g := generate_mock_draw env.today st.latest_draw_number rng
  let d :=
    if 0 < st.latest_draw_number then
      { g.1 with draw_number := st.latest_draw_number + 1 }
    else g.1
  (d, ⟨max st.latest_draw_number d.draw_number⟩, g.2, log)

/-- The powerball.com `try` block of `fetch_latest_draw` (lines 67-87): a
raise from the main page skips the history page (same handler); a main-page
draw number is unconditionally overwritten with `latest + 1` (lines 72-75);
a history-page number is patched only when missing (lines 81-84). -/
def pbStage (env : Env) (st : ScraperState) (rng : Rng) (log : FetchLog) :
    Draw × ScraperState × Rng × FetchLog :=
  match (fetchFromPbMain env).2 with
  | .exn => mockStage env st rng { log with pbMain := (fetchFromPbMain env).1 }
  | .ok none =>
    match (fetchFromPbHist env).2 with
    | .exn =>
      mockStage env st rng
        { log with pbMain := (fetchFromPbMain env).1, pbHist := (fetchFromPbHist env).1 }
    | .ok none =>
      mockStage env st rng
        { log with pbMain := (fetchFromPbMain env).1, pbHist := (fetchFromPbHist env).1 }
    | .ok (some d) =>
      let d' :=
        if 0 < st.latest_draw_number ∧ d.draw_number = 0 then
          { d with draw_number := st.latest_draw_number + 1 }
        else d
      (d', ⟨max st.latest_draw_number d'.draw_number⟩, rng,
       { log with pbMain := (fetchFromPbMain env).1, pbHist := (fetchFromPbHist env).1 })
  | .ok (some d) =>
    let d' :=
      if 0 < st.latest_draw_number then
        { d with draw_number := st.latest_draw_number + 1 }
      else d
    (d', ⟨max st.latest_draw_number d'.draw_number⟩, rng,
     { log with pbMain := (fetchFromPbMain env).1 })

/-- The CalLottery web `try` block (lines 58-65). -/
def caWebStage (env : Env) (st : ScraperState) (rng : Rng) (log : FetchLog) :
    Draw × ScraperState × Rng × FetchLog :=
  match (fetchFromCaWeb env).2 with
  | .exn => pbStage env st rng { log with caWeb := (fetchFromCaWeb env).1 }
  | .ok none => pbStage env st rng { log with caWeb := (fetchFromCaWeb env).1 }
  | .ok (some d) =>
    (d, ⟨max st.latest_draw_number d.draw_number⟩, rng,
     { log with caWeb := (fetchFromCaWeb env).1 })

/-- The CalLottery API `try` block (lines 49-56). -/
def caApiStage (env : Env) (st : ScraperState) (rng : Rng) (log : FetchLog) :
    Draw × ScraperState × Rng × FetchLog :=
  match (fetchFromCaApi env).2 with
  | .exn => caWebStage env st rng { log with caApi := (fetchFromCaApi env).1 }
  | .ok none => caWebStage env st rng { log with caApi := (fetchFromCaApi env).1 }
  | .ok (some d) =>
    (d, ⟨max st.latest_draw_number d.draw_number⟩, rng,
     { log with caApi := (fetchFromCaApi env).1 })

/-- `fetch_latest_draw` (lines 40-95). -/
def fetch_latest_draw (env : Env) (st : ScraperState) (rng : Rng) :
    Draw × ScraperState × Rng × FetchLog :=
  caApiStage env st rng {}

/-! ### `fetch_historical_draws` -/

/-- The page guard+iteration of the historical loop: `break` on a
falsy/keyless payload is `ok none`; ill-typed payloads raise. -/
def histPageCheck (data : JVal) : PyResult (Option (List JVal)) :=
  if !data.truthy then .ok none
  else
    match containsKeyE data "PreviousDraws" with
    | .exn => .exn
    | .ok false => .ok none
    | .ok true =>
      match subscriptE data "PreviousDraws" with
      | .exn => .exn
      | .ok pd =>
        if !pd.truthy then .ok none
        else
          match jiterE pd with
          | .exn => .exn
          | .ok items => .ok (some items)

/-- The page loop of `_fetch_historical_from_ca_api` (lines 388-412); fuel
is the number of remaining pages.  Every exit returns `all_draws[:count]`. -/
def histPages (env : Env) (count : Nat) : Nat → Nat → List Draw → CallOutcome (List Draw)
  | 0, _, acc => .value (acc.take count)
  | fuel + 1, page, acc =>
    match env.histPage page with
    | .transient => .transient
    | .raise => .raise
    | .value data =>
      match histPageCheck data with
      | .exn => .raise
      | .ok none => .value (acc.take count)
      | .ok (some items) =>
        let acc' := acc ++ items.filterMap parse_ca_api_draw
        if count ≤ acc'.length then .value (acc'.take count)
        else histPages env count fuel (page + 1) acc'

/-- `_fetch_historical_from_ca_api` under its retry decorator.  The
environment is deterministic per page, so the three transient retries
collapse to the single body outcome. -/
def fetchHistFromCaApi (env : Env) (count : Nat) : PyResult (List Draw) :=
  match histPages env count ((count + 19) / 20) 1 [] with
  | .value a => .ok a
  | _ => .exn

def foldMaxDN (a : Int) : List Draw → Int
  | [] => a
  | d :: ds => foldMaxDN (max a d.draw_number) ds

/-- `for i, draw in enumerate(mock_draws): draw['draw_number'] = latest - i`. -/
def renumAux (latest : Int) : Nat → List Draw → List Draw
  | _, [] => []
  | i, d :: ds => { d with draw_number := latest - (i : Int) } :: renumAux latest (i + 1) ds

/-- The fallback tail of `fetch_historical_draws` (lines 120-141): try the
latest-draw pipeline (which never raises), keep a real draw as a singleton
batch, otherwise generate a mock batch with the post-fetch state. -/
def histFallback (env : Env) (count : Nat) (st : ScraperState) (rng : Rng) :
    List Draw × ScraperState × Rng :=
  let r := fetch_latest_draw env st rng
  let d := r.1
  let st' := r.2.1
  let rng' := r.2.2.1
  if d.source ≠ "mock_data" then ([d], st', rng')
  else
    let mk := generate_mock_historical_draws env.today st'.latest_draw_number rng' count
    let mocks :=
      if 0 < st'.latest_draw_number then renumAux st'.latest_draw_number 0 mk.1
      else mk.1
    (mocks, ⟨foldMaxDN st'.latest_draw_number mocks⟩, mk.2)

/-- `fetch_historical_draws` (lines 97-141). -/
def fetch_historical_draws (env : Env) (count : Nat) (st : ScraperState) (rng : Rng) :
    List Draw × ScraperState × Rng :=
  match fetchHistFromCaApi env count with
  | .ok draws =>
    if !draws.isEmpty then (draws, ⟨foldMaxDN st.latest_draw_number draws⟩, rng)
    else histFallback env count st rng
  | .exn => histFallback env count st rng

/-! ### `enhance_draw_with_details` -/

/-- `enhance_draw_with_details` (lines 724-752). -/
def enhance_draw_with_details (env : Env) (d : Draw) : Draw :=
  if 0 < d.jackpot_amount ∧ d.source ≠ "mock_data" then d
  else
    match (fetchFromPbMain env).2 with
    | .exn => d
    | .ok none => d
    | .ok (some pb) =>
      if sortInts d.white_balls = sortInts pb.white_balls ∧ d.powerball = pb.powerball then
        let d1 :=
          if 0 < pb.jackpot_amount ∧ d.jackpot_amount = 0 then
            { d with jackpot_amount := pb.jackpot_amount }
          else d
        let d2 :=
          if 0 < pb.winners ∧ d1.winners = 0 then { d1 with winners := pb.winners }
          else d1
        { d2 with source := d2.source ++ "_enhanced" }
      else d

/-! ### Failure predicates, invariants and concrete scenarios -/

/-- Did a latest-draw source call produce a candidate draw? -/
def isDrawResult : PyResult (Option Draw) → Bool
  | .ok (some _) => true
  | _ => false

/-- Did the historical CA API fetch produce any draws? -/
def histYields : PyResult (List Draw) → Bool
  | .ok (_ :: _) => true
  | _ => false

/-- Every real latest-draw source fails (raises, or yields no candidate). -/
def latestSourcesFail (env : Env) : Prop :=
  isDrawResult (fetchFromCaApi env).2 = false ∧
  isDrawResult (fetchFromCaWeb env).2 = false ∧
  isDrawResult (fetchFromPbMain env).2 = false ∧
  isDrawResult (fetchFromPbHist env).2 = false

/-- Every real source consulted by `fetch_historical_draws count` fails. -/
def allRealSourcesFail (env : Env) (count : Nat) : Prop :=
  latestSourcesFail env ∧ histYields (fetchHistFromCaApi env count) = false

/-- §3 invariants 1-2: 5 pairwise-distinct white balls in [1,69], powerball
in [1,26]. -/
def ballsOK (d : Draw) : Prop :=
  d.white_balls.length = 5 ∧ d.white_balls.Nodup ∧
  (∀ x ∈ d.white_balls, 1 ≤ x ∧ x ≤ 69) ∧ 1 ≤ d.powerball ∧ d.powerball ≤ 26

/-- The full §3 Draw invariant set. -/
def drawInvariant (d : Draw) : Prop :=
  ballsOK d ∧ 0 < d.draw_number ∧ isRealDateISO d.draw_date ∧
  0 ≤ d.jackpot_amount ∧ 0 ≤ d.winners

/-- The closed set of provenance tags a freshly fetched draw can carry. -/
def sourceSet : List String := ["ca_api", "ca_web", "powerball.com", "mock_data"]

/-- What every draw leaving the pipeline satisfies: exactly five white
balls, a provenance tag from the closed set, and — when the draw is
synthetic — the full ball invariants. -/
def goodDraw (d : Draw) : Prop :=
  d.white_balls.length = 5 ∧ d.source ∈ sourceSet ∧
  (d.source = "mock_data" → ballsOK d)

/-- The caller-visible part of a latest-draw result (draw, state, rng). -/
def res3 (x : Draw × ScraperState × Rng × FetchLog) : Draw × ScraperState × Rng :=
  (x.1, x.2.1, x.2.2.1)

/-- A deterministic oracle stream for the concrete scenarios. -/
def rng0 : Rng := ⟨fun _ => 0, 0⟩

/-- An environment in which every HTTP call raises a non-transient error. -/
def envAllRaise : Env :=
  { today := ⟨2026, 10, 12⟩,
    caApiCalls := fun _ => .raise,
    caWebCalls := fun _ => .raise,
    pbMainCalls := fun _ => .raise,
    pbHistCalls := fun _ => .raise,
    histPage := fun _ => .raise }

/-- A CA API record whose winning numbers are out of range and repeated:
five white balls of 70 and a powerball of 99. -/
def apiItemBad : JVal :=
  .jobj [("DrawNumber", .jstr "77"), ("DrawDate", .jstr "2025-01-01T00:00:00"),
         ("WinningNumbers", .jobj [
            ("0", .jobj [("Number", .jstr "70")]),
            ("1", .jobj [("Number", .jstr "70")]),
            ("2", .jobj [("Number", .jstr "70")]),
            ("3", .jobj [("Number", .jstr "70")]),
            ("4", .jobj [("Number", .jstr "70")]),
            ("5", .jobj [("Number", .jstr "99")])])]

/-- Environment whose CA API serves `apiItemBad`. -/
def envBadApi : Env :=
  { envAllRaise with
    caApiCalls := fun _ => .value (.jobj [("PreviousDraws", .jarr [apiItemBad])]) }

/-- A well-formed CA API record (balls 1-5, powerball 6, draw 1001). -/
def apiItemOk : JVal :=
  .jobj [("DrawNumber", .jstr "1001"), ("DrawDate", .jstr "2025-01-02T00:00:00"),
         ("WinningNumbers", .jobj [
            ("0", .jobj [("Number", .jstr "1")]),
            ("1", .jobj [("Number", .jstr "2")]),
            ("2", .jobj [("Number", .jstr "3")]),
            ("3", .jobj [("Number", .jstr "4")]),
            ("4", .jobj [("Number", .jstr "5")]),
            ("5", .jobj [("Number", .jstr "6")])])]

/-- Environment whose historical CA API pages hold exactly one record. -/
def envHistOne : Env :=
  { envAllRaise with
    histPage := fun _ => .value (.jobj [("PreviousDraws", .jarr [apiItemOk])]) }

/-- A powerball.com main page with six extracted numbers but a date string
no format parses. -/
def pageBadDate : PbMainPage :=
  { dateMatch := some "Notamonth 12, 2025", drawNumMatch := none,
    numbersMatch := some (1, 2, 3, 4, 5, 6), soupNumbers := [], allNumbers := [],
    jackpotMatch := none }

def envBadDate : Env := { envAllRaise with pbMainCalls := fun _ => .value pageBadDate }

/-- A powerball.com history page whose broad regex matched a row but whose
date text fits none of the four formats. -/
def histPageBadDate : PbHistPage :=
  { found := some ⟨"Notamonth 12, 2025", some 7, 1, 2, 3, 4, 5, 6⟩,
    jackpotMatch := none }

/-- A powerball.com main page that supplies an explicit draw number 900. -/
def pageNum900 : PbMainPage :=
  { dateMatch := some "April 6, 2025", drawNumMatch := some 900,
    numbersMatch := some (1, 2, 3, 4, 5, 6), soupNumbers := [], allNumbers := [],
    jackpotMatch := none }

def envNum900 : Env := { envAllRaise with pbMainCalls := fun _ => .value pageNum900 }

/-- A powerball.com main page matching balls 1-5 / powerball 6 with no
jackpot text. -/
def pageMatch123456 : PbMainPage :=
  { dateMatch := none, drawNumMatch := none, numbersMatch := some (1, 2, 3, 4, 5, 6),
    soupNumbers := [], allNumbers := [], jackpotMatch := none }

def envEnhance : Env := { envAllRaise with pbMainCalls := fun _ => .value pageMatch123456 }

/-- An incomplete CA API draw (zero jackpot) whose numbers match
`pageMatch123456`. -/
def drawIncomplete : Draw :=
  { draw_number := 10, draw_date := "2025-01-01", white_balls := [1, 2, 3, 4, 5],
    powerball := 6, jackpot_amount := 0, winners := 0, source := "ca_api" }

/-- A complete CA API draw (positive jackpot). -/
def drawComplete : Draw :=
  { draw_number := 11, draw_date := "2025-01-04", white_balls := [7, 8, 9, 10, 11],
    powerball := 12, jackpot_amount := 20000000, winners := 1, source := "ca_api" }

/-- The draw `pbMainBody` produces from `pageBadDate` (today defaulted in). -/
def c3Draw : Draw :=
  { draw_number := 0, draw_date := "2026-10-12", white_balls := [1, 2, 3, 4, 5],
    powerball := 6, jackpot_amount := 0, winners := 0, source := "powerball.com" }

/-- The draw `pbMainBody` produces from `pageNum900`. -/
def c4Draw : Draw :=
  { draw_number := 900, draw_date := "2025-04-06", white_balls := [1, 2, 3, 4, 5],
    powerball := 6, jackpot_amount := 0, winners := 0, source := "powerball.com" }

instance (d : Draw) : Decidable (ballsOK d) := by
  unfold ballsOK; infer_instance

instance (env : Env) : Decidable (latestSourcesFail env) := by
  unfold latestSourcesFail; infer_instance

instance (env : Env) (count : Nat) : Decidable (allRealSourcesFail env count) := by
  unfold allRealSourcesFail; infer_instance

/-! ## Lemmas -/

/-! ### Arithmetic helpers -/

theorem ratMul_eq (a b : Rat) : ratMul a b = a * b := by
  rw [Rat.mul_def]
  unfold ratMul mkRat
  rw [dif_neg (Nat.mul_ne_zero a.den_nz b.den_nz)]

theorem ratAdd_eq (a b : Rat) : ratAdd a b = a + b := by
  rw [Rat.add_def]
  unfold ratAdd mkRat
  rw [dif_neg (Nat.mul_ne_zero a.den_nz b.den_nz)]

theorem ratMul_nonneg {a b : Rat} (ha : 0 ≤ a) (hb : 0 ≤ b) : 0 ≤ ratMul a b := by
  rw [ratMul_eq]; exact mul_nonneg ha hb

theorem ratAdd_nonneg {a b : Rat} (ha : 0 ≤ a) (hb : 0 ≤ b) : 0 ≤ ratAdd a b := by
  rw [ratAdd_eq]; exact add_nonneg ha hb

theorem mkRat_nonneg {n : Int} (h : 0 ≤ n) (d : Nat) : 0 ≤ mkRat n d := by
  rw [Rat.mkRat_eq_div]
  positivity

theorem pyTrunc_nonneg {q : Rat} (h : 0 ≤ q) : 0 ≤ pyTrunc q :=
  Int.tdiv_nonneg (Rat.num_nonneg.mpr h) (Int.ofNat_nonneg _)

/-! ### Retry policy -/

/-- A first attempt that is not a transient network error is never retried:
the wrapped call runs exactly once. -/
theorem retryCall_once (f : Nat → CallOutcome α) (h : f 0 ≠ .transient) :
    (retryCall 3 f).1 = 1 := by
  unfold retryCall retryGo
  cases hf : f 0 with
  | value a => simp [hf]
  | raise => simp [hf]
  | transient => exact absurd hf h

/-- Conversely, a second attempt happens only after a transient first
outcome: only network/timeout errors trigger retries. -/
theorem retryCall_retried (f : Nat → CallOutcome α) (h : 2 ≤ (retryCall 3 f).1) :
    f 0 = .transient := by
  by_contra hne
  rw [retryCall_once f hne] at h
  omega

/-! ### Randomness -/

theorem randint_bounds (a b : Nat) (r : Rng) (hab : a ≤ b) :
    a ≤ (randint a b r).1 ∧ (randint a b r).1 ≤ b := by
  have hm : (rngNext r).1 % (b - a + 1) < b - a + 1 := Nat.mod_lt _ (by omega)
  show a ≤ a + (rngNext r).1 % (b - a + 1) ∧ a + (rngNext r).1 % (b - a + 1) ≤ b
  omega

theorem choose012_le (r : Rng) : (choose012 r).1 ≤ 2 := by
  have hm : (rngNext r).1 % 3 < 3 := Nat.mod_lt _ (by omega)
  show (rngNext r).1 % 3 ≤ 2
  omega

theorem sampleAux_subset (rng : Rng) (l : List Int) (k : Nat) :
    ∀ y ∈ (sampleAux rng l k).1, y ∈ l := by
  induction k generalizing rng l with
  | zero => intro y hy; simp [sampleAux] at hy
  | succ k ih =>
    intro y hy
    unfold sampleAux at hy
    split at hy
    · simp at hy
    · simp only [List.mem_cons] at hy
      rcases hy with h | h
      · subst h; exact List.get_mem _ _ _
      · exact List.erase_subset _ _ (ih _ _ _ h)

theorem sampleAux_nodup (rng : Rng) (l : List Int) (k : Nat) (hl : l.Nodup) :
    (sampleAux rng l k).1.Nodup := by
  induction k generalizing rng l with
  | zero => simp [sampleAux]
  | succ k ih =>
    unfold sampleAux
    split
    · simp
    · refine List.nodup_cons.mpr ⟨fun hmem => ?_, ih _ _ (hl.erase _)⟩
      exact hl.not_mem_erase (sampleAux_subset _ _ _ _ hmem)

theorem sampleAux_length (rng : Rng) (l : List Int) (k : Nat)
    (hl : l.Nodup) (hk : k ≤ l.length) : (sampleAux rng l k).1.length = k := by
  induction k generalizing rng l with
  | zero => simp [sampleAux]
  | succ k ih =>
    unfold sampleAux
    split
    · omega
    · simp only [List.length_cons]
      rw [ih _ _ (hl.erase _)]
      rw [List.length_erase_of_mem (List.get_mem _ _ _)]
      omega

theorem insertSorted_perm (x : Int) (l : List Int) :
    (insertSorted x l).Perm (x :: l) := by
  induction l with
  | nil => simp [insertSorted]
  | cons y ys ih =>
    unfold insertSorted
    split
    · exact List.Perm.refl _
    · exact ((ih.cons y).trans (List.Perm.swap x y ys)).symm.symm

theorem sortInts_perm (l : List Int) : (sortInts l).Perm l := by
  induction l with
  | nil => simp [sortInts]
  | cons x xs ih =>
    exact (insertSorted_perm x (sortInts xs)).trans (ih.cons x)

theorem pop69_nodup : pop69.Nodup := by
  refine List.Nodup.map ?_ (List.nodup_range 69)
  intro a b h
  have h2 : a + 1 = b + 1 := Nat.cast_injective h
  omega

theorem pop69_mem {x : Int} (h : x ∈ pop69) : 1 ≤ x ∧ x ≤ 69 := by
  unfold pop69 at h
  simp only [List.mem_map, List.mem_range] at h
  obtain ⟨k, hk, rfl⟩ := h
  omega

theorem pop69_length : pop69.length = 69 := by
  unfold pop69
  rw [List.length_map, List.length_range]

theorem sample69_spec (rng : Rng) :
    (sample69 rng).1.length = 5 ∧ (sample69 rng).1.Nodup ∧
      ∀ x ∈ (sample69 rng).1, 1 ≤ x ∧ x ≤ 69 := by
  unfold sample69
  have hperm := sortInts_perm (sampleAux rng pop69 5).1
  refine ⟨?_, ?_, ?_⟩
  · rw [hperm.length_eq]
    exact sampleAux_length _ _ _ pop69_nodup (by rw [pop69_length]; omega)
  · exact hperm.nodup_iff.mpr (sampleAux_nodup _ _ _ pop69_nodup)
  · intro x hx
    exact pop69_mem (sampleAux_subset _ _ _ _ (hperm.mem_iff.mp hx))

/-! ### Dates -/

theorem one_le_daysInMonth (y m : Nat) : 1 ≤ daysInMonth y m := by
  unfold daysInMonth
  split
  · split <;> omega
  · split <;> omega

theorem daysInMonth_twelve (y : Nat) : daysInMonth y 12 = 31 := by
  simp [daysInMonth]

theorem subDay_valid {dt : SimpleDate} (h : validDate dt) : validDate (subDay dt) := by
  obtain ⟨h1, h2, h3, h4⟩ := h
  unfold subDay validDate validYMD
  split
  · dsimp only
    exact ⟨h1, h2, by omega, by omega⟩
  · split
    · dsimp only
      exact ⟨by omega, by omega, one_le_daysInMonth _ _, le_refl _⟩
    · dsimp only
      refine ⟨by omega, by omega, by omega, ?_⟩
      rw [daysInMonth_twelve]

theorem subDays_valid {dt : SimpleDate} (h : validDate dt) (n : Nat) :
    validDate (subDays dt n) := by
  induction n generalizing dt with
  | zero => exact h
  | succ n ih => exact ih (subDay_valid h)

theorem isRealDateISO_isoFmt {dt : SimpleDate} (h : validDate dt) :
    isRealDateISO (isoFmt dt) :=
  ⟨dt.year, dt.month, dt.day, h, rfl⟩

/-! ### Shape of the draws each source body can produce -/

theorem getBalls5_length {wn : JVal} {l : List Int} (h : getBalls5 wn = some l) :
    l.length = 5 := by
  unfold getBalls5 at h
  repeat split at h
  all_goals first
    | exact Option.noConfusion h
    | (injection h with h2; subst h2; rfl)

theorem parse_ca_api_draw_fields {j : JVal} {d : Draw}
    (h : parse_ca_api_draw j = some d) :
    d.white_balls.length = 5 ∧ d.source = "ca_api" := by
  unfold parse_ca_api_draw at h
  repeat' split at h
  all_goals try exact Option.noConfusion h
  injection h with h2
  subst h2
  exact ⟨getBalls5_length (by assumption), rfl⟩

theorem caApiLatestBody_fields {v : JVal} {d : Draw}
    (h : caApiLatestBody v = .ok (some d)) :
    d.white_balls.length = 5 ∧ d.source = "ca_api" := by
  unfold caApiLatestBody at h
  repeat' split at h
  all_goals try exact PyResult.noConfusion h
  all_goals try (injection h with h2; exact Option.noConfusion h2)
  injection h with h2
  exact parse_ca_api_draw_fields h2

theorem caWebBody_fields {p : CaWebPage} {d : Draw}
    (h : caWebBody p = .ok (some d)) :
    d.white_balls.length = 5 ∧ d.source = "ca_web" := by
  unfold caWebBody at h
  repeat' split at h
  all_goals try exact PyResult.noConfusion h
  all_goals try (injection h with h2; exact Option.noConfusion h2)
  rename_i hcond
  injection h with h2
  injection h2 with h3
  subst h3
  exact ⟨hcond.1, rfl⟩

theorem pbMainBody_fields {t : SimpleDate} {p : PbMainPage} {d : Draw}
    (h : pbMainBody t p = some d) :
    d.white_balls.length = 5 ∧ d.source = "powerball.com" := by
  unfold pbMainBody at h
  split at h
  · rename_i hcond
    injection h with h2
    subst h2
    exact ⟨hcond.1, rfl⟩
  · exact Option.noConfusion h

theorem pbHistBody_fields {p : PbHistPage} {d : Draw}
    (h : pbHistBody p = .ok (some d)) :
    d.white_balls.length = 5 ∧ d.source = "powerball.com" := by
  unfold pbHistBody at h
  repeat' split at h
  all_goals try exact PyResult.noConfusion h
  all_goals try (injection h with h2; exact Option.noConfusion h2)
  all_goals (injection h with h2; injection h2 with h3; subst h3; exact ⟨rfl, rfl⟩)

/-! ### Shape of the mock draws -/

/-- Everything `_generate_mock_draw` guarantees about its output. -/
theorem generate_mock_draw_spec (today : SimpleDate) (latest : Int) (rng : Rng) :
    (generate_mock_draw today latest rng).1.source = "mock_data" ∧
    (generate_mock_draw today latest rng).1.draw_date = isoFmt today ∧
    (generate_mock_draw today latest rng).1.white_balls.length = 5 ∧
    (generate_mock_draw today latest rng).1.white_balls.Nodup ∧
    (∀ x ∈ (generate_mock_draw today latest rng).1.white_balls, 1 ≤ x ∧ x ≤ 69) ∧
    1 ≤ (generate_mock_draw today latest rng).1.powerball ∧
    (generate_mock_draw today latest rng).1.powerball ≤ 26 ∧
    0 ≤ (generate_mock_draw today latest rng).1.jackpot_amount ∧
    (generate_mock_draw today latest rng).1.winners = 0 ∧
    (0 < latest → (generate_mock_draw today latest rng).1.draw_number = latest + 1) ∧
    (¬0 < latest → 1000 ≤ (generate_mock_draw today latest rng).1.draw_number ∧
      (generate_mock_draw today latest rng).1.draw_number ≤ 2000) := by
  unfold generate_mock_draw
  by_cases hl : 0 < latest
  · simp only [if_pos hl]
    obtain ⟨hlen, hnd, hmem⟩ := sample69_spec rng
    obtain ⟨hpb1, hpb2⟩ := randint_bounds 1 26 (sample69 rng).2 (by omega)
    refine ⟨trivial, trivial, hlen, hnd, hmem, ?_, ?_, ?_, trivial, fun _ => trivial,
      fun hc => absurd hl hc⟩
    · exact_mod_cast hpb1
    · exact_mod_cast hpb2
    · exact mkRat_nonneg (by positivity) 1
  · simp only [if_neg hl]
    obtain ⟨hdn1, hdn2⟩ := randint_bounds 1000 2000 rng (by omega)
    obtain ⟨hlen, hnd, hmem⟩ := sample69_spec (randint 1000 2000 rng).2
    obtain ⟨hpb1, hpb2⟩ :=
      randint_bounds 1 26 (sample69 (randint 1000 2000 rng).2).2 (by omega)
    refine ⟨trivial, trivial, hlen, hnd, hmem, ?_, ?_, ?_, trivial,
      fun hc => absurd hc hl, fun _ => ⟨?_, ?_⟩⟩
    · exact_mod_cast hpb1
    · exact_mod_cast hpb2
    · exact mkRat_nonneg (by positivity) 1
    · exact_mod_cast hdn1
    · exact_mod_cast hdn2

theorem mockHistJack_nonneg (i b w : Nat) (rng : Rng) :
    0 ≤ (mockHistJack i b w rng).1 := by
  unfold mockHistJack
  split
  · exact mkRat_nonneg (by positivity) 1
  · refine mkRat_nonneg (pyTrunc_nonneg ?_) 1
    exact ratMul_nonneg (mkRat_nonneg (by positivity) _)
      (ratAdd_nonneg (mkRat_nonneg (by norm_num) _)
        (ratMul_nonneg (mkRat_nonneg (by positivity) _) (mkRat_nonneg (by norm_num) _)))

/-- Field-level description of one mock-historical loop iteration. -/
theorem mockHistStep_fields (today : SimpleDate) (start : Int) (rng : Rng) (i : Nat) :
    (mockHistStep today start rng i).1.source = "mock_data" ∧
    (mockHistStep today start rng i).1.draw_number = start - (i : Int) ∧
    (mockHistStep today start rng i).1.draw_date =
      isoFmt (subDays today (i * (randint 3 4 rng).1)) ∧
    (∃ r, (mockHistStep today start rng i).1.white_balls = (sample69 r).1) ∧
    (∃ r, (mockHistStep today start rng i).1.powerball = ((randint 1 26 r).1 : Int)) ∧
    0 ≤ (mockHistStep today start rng i).1.jackpot_amount ∧
    0 ≤ (mockHistStep today start rng i).1.winners := by
  unfold mockHistStep
  dsimp only
  exact ⟨rfl, rfl, rfl, ⟨_, rfl⟩, ⟨_, rfl⟩, mockHistJack_nonneg _ _ _ _, Int.ofNat_nonneg _⟩

theorem mockHistAux_length (today : SimpleDate) (start : Int) (rng : Rng) (i n : Nat) :
    (mockHistAux today start rng i n).1.length = n := by
  induction n generalizing rng i with
  | zero => rfl
  | succ n ih =>
    show ((mockHistStep today start rng i).1 ::
      (mockHistAux today start (mockHistStep today start rng i).2 (i + 1) n).1).length = n + 1
    rw [List.length_cons, ih]

/-- Every mock-historical draw satisfies the ball invariants, carries the
mock tag, a real calendar date (when today is real), non-negative jackpot
and winners, and the descending draw number `start - (i + k)`. -/
theorem mockHistAux_mem (today : SimpleDate) (start : Int) (rng : Rng) (i n : Nat) :
    ∀ d ∈ (mockHistAux today start rng i n).1,
      d.source = "mock_data" ∧ d.white_balls.length = 5 ∧ d.white_balls.Nodup ∧
      (∀ x ∈ d.white_balls, 1 ≤ x ∧ x ≤ 69) ∧ 1 ≤ d.powerball ∧ d.powerball ≤ 26 ∧
      (validDate today → isRealDateISO d.draw_date) ∧
      0 ≤ d.jackpot_amount ∧ 0 ≤ d.winners ∧
      ∃ k, k < n ∧ d.draw_number = start - ((i + k : Nat) : Int) := by
  induction n generalizing rng i with
  | zero => intro d hd; exact absurd hd (by simp [mockHistAux])
  | succ n ih =>
    intro d hd
    have hd' : d = (mockHistStep today start rng i).1 ∨
        d ∈ (mockHistAux today start (mockHistStep today start rng i).2 (i + 1) n).1 := by
      simpa [mockHistAux] using hd
    rcases hd' with rfl | hmem
    · obtain ⟨hsrc, hdn, hdd, ⟨rw_, hwb⟩, ⟨rp, hpb⟩, hjack, hwin⟩ :=
        mockHistStep_fields today start rng i
      obtain ⟨hlen, hnd, hmem'⟩ := sample69_spec rw_
      obtain ⟨hpb1, hpb2⟩ := randint_bounds 1 26 rp (by omega)
      rw [hwb, hpb]
      refine ⟨hsrc, hlen, hnd, hmem', by exact_mod_cast hpb1, by exact_mod_cast hpb2,
        ?_, hjack, hwin, 0, by omega, by rw [hdn]; norm_num⟩
      intro hv
      rw [hdd]
      exact isRealDateISO_isoFmt (subDays_valid hv _)
    · obtain ⟨h1, h2, h3, h4, h5, h6, h7, h8, h9, k, hk, hdn⟩ := ih _ _ _ hmem
      exact ⟨h1, h2, h3, h4, h5, h6, h7, h8, h9, k + 1, by omega, by rw [hdn]; congr 1; omega⟩

/-- The draw numbers of a mock-historical batch descend from `start - i`. -/
theorem mockHistAux_map_dn (today : SimpleDate) (start : Int) (rng : Rng) (i n : Nat) :
    (mockHistAux today start rng i n).1.map (fun d => d.draw_number) =
      (List.range n).map (fun k => start - ((i + k : Nat) : Int)) := by
  induction n generalizing rng i with
  | zero => rfl
  | succ n ih =>
    show (mockHistStep today start rng i).1.draw_number ::
        (mockHistAux today start (mockHistStep today start rng i).2 (i + 1) n).1.map
          (fun d => d.draw_number) =
      (List.range (n + 1)).map (fun k => start - ((i + k : Nat) : Int))
    rw [List.range_succ_eq_map, List.map_cons, List.map_map, ih]
    obtain ⟨_, hdn, _⟩ := mockHistStep_fields today start rng i
    rw [hdn]
    simp only [List.cons.injEq]
    constructor
    · omega
    · apply List.map_congr_left
      intro k _
      show start - ((i + 1 + k : Nat) : Int) = start - ((i + (k + 1) : Nat) : Int)
      omega

theorem renumAux_length (latest : Int) (i : Nat) (l : List Draw) :
    (renumAux latest i l).length = l.length := by
  induction l generalizing i with
  | nil => rfl
  | cons d ds ih => simp [renumAux, ih]

/-- Renumbering only rewrites `draw_number`, to `latest - (i + k)` for the
`k`-th entry. -/
theorem renumAux_mem (latest : Int) (i : Nat) (l : List Draw) :
    ∀ d' ∈ renumAux latest i l, ∃ k, k < l.length ∧
      ∃ d ∈ l, d' = { d with draw_number := latest - ((i + k : Nat) : Int) } := by
  induction l generalizing i with
  | nil => intro d' hd'; exact absurd hd' (by simp [renumAux])
  | cons d ds ih =>
    intro d' hd'
    rcases (by simpa [renumAux] using hd' :
        d' = { d with draw_number := latest - (i : Int) } ∨ d' ∈ renumAux latest (i + 1) ds) with
      rfl | hmem
    · exact ⟨0, by simp, d, by simp, by norm_num⟩
    · obtain ⟨k, hk, dd, hdd, rfl⟩ := ih _ _ hmem
      refine ⟨k + 1, by simpa using Nat.succ_lt_succ hk, dd, List.mem_cons_of_mem _ hdd, ?_⟩
      have hidx : (i + 1 + k : Nat) = (i + (k + 1) : Nat) := by omega
      rw [hidx]

/-- Draw numbers after renumbering. -/
theorem renumAux_map_dn (latest : Int) (i : Nat) (l : List Draw) :
    (renumAux latest i l).map (fun d => d.draw_number) =
      (List.range l.length).map (fun k => latest - ((i + k : Nat) : Int)) := by
  induction l generalizing i with
  | nil => rfl
  | cons d ds ih =>
    rw [List.length_cons, List.range_succ_eq_map]
    show (latest - (i : Int)) :: (renumAux latest (i + 1) ds).map (fun d => d.draw_number) =
      (latest - ((i + 0 : Nat) : Int)) ::
        ((List.range ds.length).map (fun k => k + 1)).map
          (fun k => latest - ((i + k : Nat) : Int))
    rw [ih, List.map_map]
    simp only [List.cons.injEq]
    constructor
    · omega
    · apply List.map_congr_left
      intro k _
      show latest - ((i + 1 + k : Nat) : Int) = latest - ((i + (k + 1) : Nat) : Int)
      omega

/-! ### Extracting body successes from the retry-wrapped fetchers -/

theorem fetchFromCaApi_some {env : Env} {d : Draw}
    (h : (fetchFromCaApi env).2 = .ok (some d)) :
    ∃ v, caApiLatestBody v = .ok (some d) := by
  unfold fetchFromCaApi at h
  split at h
  · exact absurd h (by simp)
  · exact ⟨_, h⟩

theorem fetchFromCaWeb_some {env : Env} {d : Draw}
    (h : (fetchFromCaWeb env).2 = .ok (some d)) :
    ∃ p, caWebBody p = .ok (some d) := by
  unfold fetchFromCaWeb at h
  split at h
  · exact absurd h (by simp)
  · exact ⟨_, h⟩

theorem fetchFromPbMain_some {env : Env} {d : Draw}
    (h : (fetchFromPbMain env).2 = .ok (some d)) :
    ∃ p, pbMainBody env.today p = some d := by
  unfold fetchFromPbMain at h
  split at h
  · exact absurd h (by simp)
  · exact ⟨_, by injection h⟩

theorem fetchFromPbHist_some {env : Env} {d : Draw}
    (h : (fetchFromPbHist env).2 = .ok (some d)) :
    ∃ p, pbHistBody p = .ok (some d) := by
  unfold fetchFromPbHist at h
  split at h
  · exact absurd h (by simp)
  · exact ⟨_, h⟩

/-! ### The fallback chain of `fetch_latest_draw` -/

/-- Shape of the mock terminal stage: mock tag, ball invariants, today's
date, non-negative jackpot and winners. -/
theorem mockStage_draw (env : Env) (st : ScraperState) (rng : Rng) (log : FetchLog) :
    (mockStage env st rng log).1.source = "mock_data" ∧
    ballsOK (mockStage env st rng log).1 ∧
    (mockStage env st rng log).1.draw_date = isoFmt env.today ∧
    0 ≤ (mockStage env st rng log).1.jackpot_amount ∧
    (mockStage env st rng log).1.winners = 0 := by
  obtain ⟨hsrc, hdate, hlen, hnd, hmem, hpb1, hpb2, hjack, hwin, _, _⟩ :=
    generate_mock_draw_spec env.today st.latest_draw_number rng
  unfold mockStage ballsOK
  dsimp only
  split
  · exact ⟨hsrc, ⟨hlen, hnd, hmem, hpb1, hpb2⟩, hdate, hjack, hwin⟩
  · exact ⟨hsrc, ⟨hlen, hnd, hmem, hpb1, hpb2⟩, hdate, hjack, hwin⟩

/-- The draw number and the updated high-water mark of the mock stage. -/
theorem mockStage_number (env : Env) (st : ScraperState) (rng : Rng) (log : FetchLog) :
    (0 < st.latest_draw_number →
      (mockStage env st rng log).1.draw_number = st.latest_draw_number + 1) ∧
    (¬0 < st.latest_draw_number →
      1000 ≤ (mockStage env st rng log).1.draw_number ∧
      (mockStage env st rng log).1.draw_number ≤ 2000) ∧
    (mockStage env st rng log).2.1.latest_draw_number =
      max st.latest_draw_number (mockStage env st rng log).1.draw_number ∧
    (mockStage env st rng log).2.2.1 =
      (generate_mock_draw env.today st.latest_draw_number rng).2 := by
  obtain ⟨_, _, _, _, _, _, _, _, _, hpos, hneg⟩ :=
    generate_mock_draw_spec env.today st.latest_draw_number rng
  unfold mockStage
  dsimp only
  split
  · rename_i hl
    exact ⟨fun _ => rfl, fun hc => absurd hl hc, rfl, rfl⟩
  · rename_i hl
    exact ⟨fun hc => absurd hc hl, fun _ => hneg hl, rfl, rfl⟩

theorem caApiStage_fall {env : Env} (st : ScraperState) (rng : Rng) (log : FetchLog)
    (h : isDrawResult (fetchFromCaApi env).2 = false) :
    caApiStage env st rng log =
      caWebStage env st rng { log with caApi := (fetchFromCaApi env).1 } := by
  unfold caApiStage
  cases hr : (fetchFromCaApi env).2 with
  | exn => rfl
  | ok o =>
    cases o with
    | none => rfl
    | some d => rw [hr] at h; exact absurd h (by simp [isDrawResult])

theorem caWebStage_fall {env : Env} (st : ScraperState) (rng : Rng) (log : FetchLog)
    (h : isDrawResult (fetchFromCaWeb env).2 = false) :
    caWebStage env st rng log =
      pbStage env st rng { log with caWeb := (fetchFromCaWeb env).1 } := by
  unfold caWebStage
  cases hr : (fetchFromCaWeb env).2 with
  | exn => rfl
  | ok o =>
    cases o with
    | none => rfl
    | some d => rw [hr] at h; exact absurd h (by simp [isDrawResult])

theorem pbStage_fall {env : Env} (st : ScraperState) (rng : Rng) (log : FetchLog)
    (hm : isDrawResult (fetchFromPbMain env).2 = false)
    (hh : isDrawResult (fetchFromPbHist env).2 = false) :
    res3 (pbStage env st rng log) = res3 (mockStage env st rng log) := by
  unfold pbStage
  cases hr : (fetchFromPbMain env).2 with
  | exn => rfl
  | ok o =>
    cases o with
    | some d => rw [hr] at hm; exact absurd hm (by simp [isDrawResult])
    | none =>
      cases hr2 : (fetchFromPbHist env).2 with
      | exn => rfl
      | ok o2 =>
        cases o2 with
        | some d => rw [hr2] at hh; exact absurd hh (by simp [isDrawResult])
        | none => rfl

/-- Under total real-source failure, `fetch_latest_draw` is exactly the
mock terminal stage (same draw, same state update, same random stream). -/
theorem fetch_latest_fall {env : Env} (st : ScraperState) (rng : Rng)
    (h : latestSourcesFail env) :
    res3 (fetch_latest_draw env st rng) = res3 (mockStage env st rng {}) := by
  obtain ⟨h1, h2, h3, h4⟩ := h
  unfold fetch_latest_draw
  rw [caApiStage_fall st rng _ h1, caWebStage_fall st rng _ h2]
  exact pbStage_fall st rng _ h3 h4

/-! ### Success characterisations of the stages -/

theorem caApiStage_success {env : Env} {st : ScraperState} {rng : Rng} {log : FetchLog}
    {d : Draw} (h : (fetchFromCaApi env).2 = .ok (some d)) :
    (caApiStage env st rng log).1 = d := by
  unfold caApiStage
  rw [h]

theorem caWebStage_success {env : Env} {st : ScraperState} {rng : Rng} {log : FetchLog}
    {d : Draw} (h : (fetchFromCaWeb env).2 = .ok (some d)) :
    (caWebStage env st rng log).1 = d := by
  unfold caWebStage
  rw [h]

/-- A main-page success overwrites the draw number with `latest + 1`
whenever a high-water mark exists, even when the page supplied a number. -/
theorem pbStage_main_success {env : Env} {st : ScraperState} {rng : Rng} {log : FetchLog}
    {d : Draw} (h : (fetchFromPbMain env).2 = .ok (some d)) :
    (pbStage env st rng log).1 =
      (if 0 < st.latest_draw_number then
        { d with draw_number := st.latest_draw_number + 1 }
      else d) := by
  unfold pbStage
  rw [h]

/-- A history-page success is renumbered only when its number is missing. -/
theorem pbStage_hist_success {env : Env} {st : ScraperState} {rng : Rng} {log : FetchLog}
    {d : Draw} (hm : (fetchFromPbMain env).2 = .ok none)
    (h : (fetchFromPbHist env).2 = .ok (some d)) :
    (pbStage env st rng log).1 =
      (if 0 < st.latest_draw_number ∧ d.draw_number = 0 then
        { d with draw_number := st.latest_draw_number + 1 }
      else d) := by
  unfold pbStage
  rw [hm, h]

/-! ### Every draw leaving the pipeline is well-shaped -/

theorem goodDraw_patch {d : Draw} (x : Int) (h : goodDraw d) :
    goodDraw { d with draw_number := x } := by
  obtain ⟨h1, h2, h3⟩ := h
  exact ⟨h1, h2, fun hs => by
    obtain ⟨g1, g2, g3, g4, g5⟩ := h3 hs
    exact ⟨g1, g2, g3, g4, g5⟩⟩

theorem mockStage_good (env : Env) (st : ScraperState) (rng : Rng) (log : FetchLog) :
    goodDraw (mockStage env st rng log).1 := by
  obtain ⟨hsrc, hballs, _, _, _⟩ := mockStage_draw env st rng log
  exact ⟨hballs.1, by rw [hsrc]; decide, fun _ => hballs⟩

theorem pbStage_good (env : Env) (st : ScraperState) (rng : Rng) (log : FetchLog) :
    goodDraw (pbStage env st rng log).1 := by
  cases hr : (fetchFromPbMain env).2 with
  | exn =>
    have : pbStage env st rng log =
        mockStage env st rng { log with pbMain := (fetchFromPbMain env).1 } := by
      unfold pbStage; rw [hr]
    rw [this]; exact mockStage_good _ _ _ _
  | ok o =>
    cases o with
    | some d =>
      obtain ⟨p, hp⟩ := fetchFromPbMain_some hr
      obtain ⟨hlen, hsrc⟩ := pbMainBody_fields hp
      have hgood : goodDraw d :=
        ⟨hlen, by rw [hsrc]; decide, fun hs => by rw [hsrc] at hs; exact absurd hs (by decide)⟩
      rw [pbStage_main_success hr]
      split
      · exact goodDraw_patch _ hgood
      · exact hgood
    | none =>
      cases hr2 : (fetchFromPbHist env).2 with
      | exn =>
        have : pbStage env st rng log =
            mockStage env st rng
              { log with pbMain := (fetchFromPbMain env).1,
                         pbHist := (fetchFromPbHist env).1 } := by
          unfold pbStage; rw [hr, hr2]
        rw [this]; exact mockStage_good _ _ _ _
      | ok o2 =>
        cases o2 with
        | none =>
          have : pbStage env st rng log =
              mockStage env st rng
                { log with pbMain := (fetchFromPbMain env).1,
                           pbHist := (fetchFromPbHist env).1 } := by
            unfold pbStage; rw [hr, hr2]
          rw [this]; exact mockStage_good _ _ _ _
        | some d =>
          obtain ⟨p, hp⟩ := fetchFromPbHist_some hr2
          obtain ⟨hlen, hsrc⟩ := pbHistBody_fields hp
          have hgood : goodDraw d :=
            ⟨hlen, by rw [hsrc]; decide,
             fun hs => by rw [hsrc] at hs; exact absurd hs (by decide)⟩
          rw [pbStage_hist_success hr hr2]
          split
          · exact goodDraw_patch _ hgood
          · exact hgood

theorem caWebStage_good (env : Env) (st : ScraperState) (rng : Rng) (log : FetchLog) :
    goodDraw (caWebStage env st rng log).1 := by
  cases hr : (fetchFromCaWeb env).2 with
  | exn =>
    have : caWebStage env st rng log =
        pbStage env st rng { log with caWeb := (fetchFromCaWeb env).1 } := by
      unfold caWebStage; rw [hr]
    rw [this]; exact pbStage_good _ _ _ _
  | ok o =>
    cases o with
    | none =>
      have : caWebStage env st rng log =
          pbStage env st rng { log with caWeb := (fetchFromCaWeb env).1 } := by
        unfold caWebStage; rw [hr]
      rw [this]; exact pbStage_good _ _ _ _
    | some d =>
      obtain ⟨p, hp⟩ := fetchFromCaWeb_some hr
      obtain ⟨hlen, hsrc⟩ := caWebBody_fields hp
      rw [caWebStage_success hr]
      exact ⟨hlen, by rw [hsrc]; decide,
        fun hs => by rw [hsrc] at hs; exact absurd hs (by decide)⟩

theorem fetch_latest_good (env : Env) (st : ScraperState) (rng : Rng) :
    goodDraw (fetch_latest_draw env st rng).1 := by
  show goodDraw (caApiStage env st rng {}).1
  cases hr : (fetchFromCaApi env).2 with
  | exn =>
    have : caApiStage env st rng {} =
        caWebStage env st rng { caApi := (fetchFromCaApi env).1 } := by
      unfold caApiStage; rw [hr]
    rw [this]; exact caWebStage_good _ _ _ _
  | ok o =>
    cases o with
    | none =>
      have : caApiStage env st rng {} =
          caWebStage env st rng { caApi := (fetchFromCaApi env).1 } := by
        unfold caApiStage; rw [hr]
      rw [this]; exact caWebStage_good _ _ _ _
    | some d =>
      obtain ⟨v, hv⟩ := fetchFromCaApi_some hr
      obtain ⟨hlen, hsrc⟩ := caApiLatestBody_fields hv
      rw [caApiStage_success hr]
      exact ⟨hlen, by rw [hsrc]; decide,
        fun hs => by rw [hsrc] at hs; exact absurd hs (by decide)⟩

/-! ### The historical page loop -/

/-- Whatever the page loop returns is at most `count` draws, each either
carried in from the accumulator or parsed from some payload record. -/
theorem histPages_value {env : Env} {count : Nat} :
    ∀ {fuel page : Nat} {acc l : List Draw},
      histPages env count fuel page acc = .value l →
      l.length ≤ count ∧ ∀ d ∈ l, d ∈ acc ∨ ∃ j, parse_ca_api_draw j = some d := by
  intro fuel
  induction fuel with
  | zero =>
    intro page acc l h
    injection h with h2
    subst h2
    exact ⟨by simp, fun d hd => Or.inl (List.take_subset _ _ hd)⟩
  | succ fuel ih =>
    intro page acc l h
    unfold histPages at h
    split at h
    · exact CallOutcome.noConfusion h
    · exact CallOutcome.noConfusion h
    · split at h
      · exact CallOutcome.noConfusion h
      · injection h with h2
        subst h2
        exact ⟨by simp, fun d hd => Or.inl (List.take_subset _ _ hd)⟩
      · dsimp only at h
        split at h
        · injection h with h2
          subst h2
          refine ⟨by simp, fun d hd => ?_⟩
          rcases List.mem_append.mp (List.take_subset _ _ hd) with hin | hin
          · exact Or.inl hin
          · obtain ⟨j, _, hj⟩ := List.mem_filterMap.mp hin
            exact Or.inr ⟨j, hj⟩
        · obtain ⟨hle, hmem⟩ := ih h
          refine ⟨hle, fun d hd => ?_⟩
          rcases hmem d hd with hin | hin
          · rcases List.mem_append.mp hin with h1 | h1
            · exact Or.inl h1
            · obtain ⟨j, _, hj⟩ := List.mem_filterMap.mp h1
              exact Or.inr ⟨j, hj⟩
          · exact Or.inr hin

theorem fetchHistFromCaApi_ok {env : Env} {count : Nat} {l : List Draw}
    (h : fetchHistFromCaApi env count = .ok l) :
    l.length ≤ count ∧ ∀ d ∈ l, ∃ j, parse_ca_api_draw j = some d := by
  unfold fetchHistFromCaApi at h
  split at h
  · injection h with h2
    subst h2
    obtain ⟨hle, hmem⟩ := histPages_value (by assumption)
    refine ⟨hle, fun d hd => ?_⟩
    rcases hmem d hd with hin | hin
    · exact absurd hin (by simp)
    · exact hin
  · exact PyResult.noConfusion h

theorem res3_eq_parts {x y : Draw × ScraperState × Rng × FetchLog} (h : res3 x = res3 y) :
    x.1 = y.1 ∧ x.2.1 = y.2.1 ∧ x.2.2.1 = y.2.2.1 := by
  unfold res3 at h
  exact ⟨congrArg (fun z => z.1) h, congrArg (fun z => z.2.1) h, congrArg (fun z => z.2.2) h⟩

/-- The mock stage always leaves a strictly positive high-water mark. -/
theorem mockStage_state_pos (env : Env) (st : ScraperState) (rng : Rng) (log : FetchLog) :
    0 < (mockStage env st rng log).2.1.latest_draw_number := by
  obtain ⟨hpos, hneg, hmax, _⟩ := mockStage_number env st rng log
  by_cases hl : 0 < st.latest_draw_number
  · rw [hmax, hpos hl]; omega
  · obtain ⟨h1, _⟩ := hneg hl
    rw [hmax]; omega

/-- Under total latest-source failure, the fallback tail of
`fetch_historical_draws` produces the renumbered mock batch generated from
the post-mock-fetch state. -/
theorem histFallback_mock {env : Env} (count : Nat) (st : ScraperState) (rng : Rng)
    (h : latestSourcesFail env) :
    (histFallback env count st rng).1 =
      renumAux (mockStage env st rng {}).2.1.latest_draw_number 0
        (generate_mock_historical_draws env.today
          (mockStage env st rng {}).2.1.latest_draw_number
          (mockStage env st rng {}).2.2.1 count).1 := by
  obtain ⟨hd, hst, hrng⟩ := res3_eq_parts (fetch_latest_fall st rng h)
  obtain ⟨hsrc, _, _, _, _⟩ := mockStage_draw env st rng ({} : FetchLog)
  unfold histFallback
  dsimp only
  rw [hd, hst, hrng, hsrc]
  rw [if_neg (by simp)]
  rw [if_pos (mockStage_state_pos env st rng {})]

/-- When the historical CA API path yields nothing, `fetch_historical_draws`
is its fallback tail. -/
theorem fetch_historical_fallback {env : Env} {count : Nat} (st : ScraperState) (rng : Rng)
    (h : histYields (fetchHistFromCaApi env count) = false) :
    fetch_historical_draws env count st rng = histFallback env count st rng := by
  unfold fetch_historical_draws
  cases hr : fetchHistFromCaApi env count with
  | exn => rfl
  | ok l =>
    cases l with
    | nil => rfl
    | cons d ds => rw [hr] at h; exact absurd h (by simp [histYields])

/-- Every draw in a historical batch is well-shaped. -/
theorem fetch_historical_good (env : Env) (count : Nat) (st : ScraperState) (rng : Rng) :
    ∀ d ∈ (fetch_historical_draws env count st rng).1, goodDraw d := by
  have hfall : ∀ d ∈ (histFallback env count st rng).1, goodDraw d := by
    unfold histFallback
    dsimp only
    split
    · intro d hd
      rw [List.mem_singleton.mp hd]
      exact fetch_latest_good _ _ _
    · intro d hd
      split at hd
      · obtain ⟨k, hk, d0, hd0, rfl⟩ := renumAux_mem _ _ _ _ hd
        obtain ⟨hsrc, hlen, hnd, hmem, hpb1, hpb2, _, _, _, _⟩ :=
          mockHistAux_mem _ _ _ _ _ _ hd0
        exact goodDraw_patch _
          ⟨hlen, by rw [hsrc]; decide, fun _ => ⟨hlen, hnd, hmem, hpb1, hpb2⟩⟩
      · obtain ⟨hsrc, hlen, hnd, hmem, hpb1, hpb2, _, _, _, _⟩ :=
          mockHistAux_mem _ _ _ _ _ _ hd
        exact ⟨hlen, by rw [hsrc]; decide, fun _ => ⟨hlen, hnd, hmem, hpb1, hpb2⟩⟩
  unfold fetch_historical_draws
  split
  · split
    · rename_i l hl _
      intro d hd
      obtain ⟨_, hmem⟩ := fetchHistFromCaApi_ok hl
      obtain ⟨j, hj⟩ := hmem d hd
      obtain ⟨hlen, hsrc⟩ := parse_ca_api_draw_fields hj
      exact ⟨hlen, by rw [hsrc]; decide,
        fun hs => by rw [hsrc] at hs; exact absurd hs (by decide)⟩
    · exact hfall
  · exact hfall

/-! ## Claim theorems -/

/-- C5: a source whose payload is malformed (a `ParseError`, i.e. any
non-transient failure) is called exactly once per pipeline invocation and
the orchestrator falls straight through to the next source; only transient
network/timeout errors ever trigger a retry. -/
theorem c5_no_retry_on_parse_error :
    (∀ {α : Type} (f : Nat → CallOutcome α),
      f 0 ≠ .transient → (retryCall 3 f).1 = 1) ∧
    (∀ {α : Type} (f : Nat → CallOutcome α),
      2 ≤ (retryCall 3 f).1 → f 0 = .transient) ∧
    (∀ (env : Env), env.caApiCalls 0 ≠ .transient → (fetchFromCaApi env).1 = 1) ∧
    (∀ (env : Env) (st : ScraperState) (rng : Rng),
      isDrawResult (fetchFromCaApi env).2 = false →
      fetch_latest_draw env st rng =
        caWebStage env st rng { caApi := (fetchFromCaApi env).1 }) := by
  refine ⟨fun f h => retryCall_once f h, fun f h => retryCall_retried f h, ?_, ?_⟩
  · intro env h
    unfold fetchFromCaApi
    cases hr : retryCall 3 env.caApiCalls with
    | mk n r =>
      have : n = 1 := by
        have := retryCall_once env.caApiCalls h
        rw [hr] at this
        exact this
      subst this
      cases r <;> rfl
  · intro env st rng h
    exact caApiStage_fall st rng {} h

/-- C5 witness: a first-call raise is never retried, and after it the
pipeline proceeds with the CalLottery web source. -/
theorem c5_witness :
    (retryCall 3 (fun _ => (CallOutcome.raise : CallOutcome Nat))).1 = 1 ∧
    fetch_latest_draw envAllRaise ⟨0⟩ rng0 =
      caWebStage envAllRaise ⟨0⟩ rng0 { caApi := 1 } := by
  refine ⟨c5_no_retry_on_parse_error.1 _ (fun h => CallOutcome.noConfusion h), ?_⟩
  have h := c5_no_retry_on_parse_error.2.2.2 envAllRaise ⟨0⟩ rng0 (by decide)
  exact h

/-- C6 counterexample: `Million` recognition is case-SENSITIVE on the
CalLottery web path (only `Million`), and only `Million`/`million` on the
powerball.com path, so the claimed case-insensitive parse fails:
"$1.5 million" yields 0, not 1500000, on the ca_web path. -/
theorem c6_counterexample :
    parseJackpotCaWeb "$1.5 million" = 0 ∧ (0 : Rat) ≠ 1500000 ∧
    parseJackpotPb "$1.5 MILLION" = 0 := by
  exact ⟨by decide, by decide, by decide⟩

/-- C6 (amended): currency normalization strips `$` and commas and scales
by `Million`/`Billion`, but only in capitalised form on the ca_web path and
only first-letter-case-insensitively (`[Mm]illion`) on the powerball.com
paths; "$1.5 Million" → 1500000 and "$2 Billion" → 2000000000 on every
path, and text that fails the numeric parse yields 0 rather than an
exception. -/
theorem c6_amended_theorem :
    parseJackpotCaWeb "$1.5 Million" = 1500000 ∧
    parseJackpotCaWeb "$2 Billion" = 2000000000 ∧
    parseJackpotPb "$1.5 Million" = 1500000 ∧
    parseJackpotPb "$2 Billion" = 2000000000 ∧
    parseJackpotPb "$1.5 million" = 1500000 ∧
    parseJackpotPb "$2 billion" = 2000000000 ∧
    (∀ s : String,
      strContains (removeAllStr "," (removeAllStr "$" s)) "Million" = false →
      strContains (removeAllStr "," (removeAllStr "$" s)) "Billion" = false →
      ratOfStr (removeAllStr "," (removeAllStr "$" s)) = none →
      parseJackpotCaWeb s = 0) := by
  refine ⟨by decide, by decide, by decide, by decide, by decide, by decide, ?_⟩
  intro s h1 h2 h3
  unfold parseJackpotCaWeb
  dsimp only
  rw [h1, h2, h3]
  rfl

/-- C6 witness: unparseable jackpot text degrades to 0. -/
theorem c6_amended_witness : parseJackpotCaWeb "no jackpot today" = 0 := by
  exact c6_amended_theorem.2.2.2.2.2.2 "no jackpot today" (by decide) (by decide) (by decide)

/-- C7: `fetch_latest_draw` never propagates an error: it always returns a
draw whose provenance tag is from the closed source set, and when every
real source fails the synthetic generator is the unconditional terminal
success. -/
theorem c7_never_errors :
    ∀ (env : Env) (st : ScraperState) (rng : Rng),
      (fetch_latest_draw env st rng).1.source ∈ sourceSet ∧
      (latestSourcesFail env → (fetch_latest_draw env st rng).1.source = "mock_data") := by
  intro env st rng
  refine ⟨(fetch_latest_good env st rng).2.1, fun hfail => ?_⟩
  obtain ⟨hd, _, _⟩ := res3_eq_parts (fetch_latest_fall st rng hfail)
  rw [hd]
  exact (mockStage_draw env st rng {}).1

/-- C7 witness: with every source raising, the returned draw is synthetic. -/
theorem c7_witness : (fetch_latest_draw envAllRaise ⟨0⟩ rng0).1.source = "mock_data" := by
  exact (c7_never_errors envAllRaise ⟨0⟩ rng0).2 (by decide)

/-- C9 counterexample: enhancing twice is NOT always the same as enhancing
once: when the powerball.com numbers match but the jackpot stays 0, every
run appends another `_enhanced` suffix to the provenance tag. -/
theorem c9_counterexample :
    enhance_draw_with_details envEnhance (enhance_draw_with_details envEnhance drawIncomplete) ≠
      enhance_draw_with_details envEnhance drawIncomplete := by
  intro h
  have h2 := congrArg Draw.source h
  rw [show (enhance_draw_with_details envEnhance
        (enhance_draw_with_details envEnhance drawIncomplete)).source =
      "ca_api_enhanced_enhanced" from rfl,
    show (enhance_draw_with_details envEnhance drawIncomplete).source =
      "ca_api_enhanced" from rfl] at h2
  exact absurd h2 (by decide)

/-- C9 (amended): enhancing an already-complete draw (positive jackpot,
non-mock source) is a no-op, and enhancement is idempotent from any draw
whose first enhancement came out complete; but when the first enhancement
leaves the jackpot at 0, a second run can change the draw again. -/
theorem c9_amended_theorem :
    ∀ (env : Env) (d : Draw),
      (0 < d.jackpot_amount ∧ d.source ≠ "mock_data" →
        enhance_draw_with_details env d = d) ∧
      (0 < (enhance_draw_with_details env d).jackpot_amount ∧
          (enhance_draw_with_details env d).source ≠ "mock_data" →
        enhance_draw_with_details env (enhance_draw_with_details env d) =
          enhance_draw_with_details env d) := by
  have hbase : ∀ (env : Env) (d : Draw),
      0 < d.jackpot_amount ∧ d.source ≠ "mock_data" →
      enhance_draw_with_details env d = d := by
    intro env d h
    unfold enhance_draw_with_details
    rw [if_pos h]
  intro env d
  exact ⟨hbase env d, fun h => hbase env _ h⟩

/-- C9 witness: a complete draw passes through enhancement unchanged. -/
theorem c9_amended_witness :
    enhance_draw_with_details envEnhance drawComplete = drawComplete := by
  exact (c9_amended_theorem envEnhance drawComplete).1 (by decide)

/-- C1 counterexample: no validator exists on the CA API path — a payload
with five white balls of 70 and powerball 99 flows through
`fetch_latest_draw` untouched, violating the claimed ball invariants. -/
theorem c1_counterexample :
    (fetch_latest_draw envBadApi ⟨0⟩ rng0).1.white_balls = [70, 70, 70, 70, 70] ∧
    (fetch_latest_draw envBadApi ⟨0⟩ rng0).1.powerball = 99 ∧
    ¬ballsOK (fetch_latest_draw envBadApi ⟨0⟩ rng0).1 := by
  exact ⟨by decide, by decide, by decide⟩

/-- C1 (amended): every draw returned by `fetch_latest_draw` or
`fetch_historical_draws` has exactly 5 white balls, and draws produced by
the mock generator additionally have them pairwise distinct in [1,69] with
powerball in [1,26]; ranges and distinctness are NOT enforced on the
real-source paths. -/
theorem c1_amended_theorem :
    ∀ (env : Env) (st : ScraperState) (rng : Rng) (count : Nat),
      ((fetch_latest_draw env st rng).1.white_balls.length = 5 ∧
        ((fetch_latest_draw env st rng).1.source = "mock_data" →
          ballsOK (fetch_latest_draw env st rng).1)) ∧
      ∀ d ∈ (fetch_historical_draws env count st rng).1,
        d.white_balls.length = 5 ∧ (d.source = "mock_data" → ballsOK d) := by
  intro env st rng count
  obtain ⟨h1, _, h3⟩ := fetch_latest_good env st rng
  refine ⟨⟨h1, h3⟩, fun d hd => ?_⟩
  obtain ⟨g1, _, g3⟩ := fetch_historical_good env count st rng d hd
  exact ⟨g1, g3⟩

/-- C1 witness: a concrete all-sources-down run returns a mock draw that
satisfies the full ball invariants. -/
theorem c1_amended_witness :
    (fetch_latest_draw envAllRaise ⟨0⟩ rng0).1.white_balls.length = 5 ∧
    ballsOK (fetch_latest_draw envAllRaise ⟨0⟩ rng0).1 := by
  obtain ⟨⟨h1, h3⟩, _⟩ := c1_amended_theorem envAllRaise ⟨0⟩ rng0 1
  exact ⟨h1, h3 (by decide)⟩

/-- C2 counterexample: when the CA API yields a non-empty but short batch,
no shortfall fill happens — `fetch_historical_draws` with `count = 2`
returns a single draw. -/
theorem c2_counterexample :
    (fetch_historical_draws envHistOne 2 ⟨0⟩ rng0).1.length = 1 ∧ (1 : Nat) ≠ 2 := by
  exact ⟨by decide, by decide⟩

/-- C2 (amended): `fetch_historical_draws count` returns exactly `count`
draws when every real source fails (the mock fill); in general (for
`count ≥ 1`) it returns at most `count` draws, and a partially successful
real source can leave the batch short. -/
theorem c2_amended_theorem :
    ∀ (env : Env) (count : Nat) (st : ScraperState) (rng : Rng),
      (allRealSourcesFail env count →
        (fetch_historical_draws env count st rng).1.length = count) ∧
      (1 ≤ count → (fetch_historical_draws env count st rng).1.length ≤ count) := by
  intro env count st rng
  constructor
  · intro hfail
    obtain ⟨hfailL, hfailH⟩ := hfail
    rw [fetch_historical_fallback st rng hfailH, histFallback_mock count st rng hfailL,
      renumAux_length]
    unfold generate_mock_historical_draws
    rw [mockHistAux_length]
  · intro hcount
    by_cases hy : histYields (fetchHistFromCaApi env count) = true
    · unfold fetch_historical_draws
      cases hr : fetchHistFromCaApi env count with
      | exn => rw [hr] at hy; exact absurd hy (by simp [histYields])
      | ok l =>
        cases l with
        | nil => rw [hr] at hy; exact absurd hy (by simp [histYields])
        | cons d ds =>
          dsimp only
          rw [if_pos (by simp)]
          exact (fetchHistFromCaApi_ok hr).1
    · rw [Bool.not_eq_true] at hy
      rw [fetch_historical_fallback st rng hy]
      unfold histFallback
      dsimp only
      split
      · simpa using hcount
      · split
        · rw [renumAux_length]
          unfold generate_mock_historical_draws
          rw [mockHistAux_length]
        · unfold generate_mock_historical_draws
          rw [mockHistAux_length]

/-- C2 witness: the mock fill delivers an exact batch; a real but short
source delivers at most the requested size. -/
theorem c2_amended_witness :
    (fetch_historical_draws envAllRaise 3 ⟨0⟩ rng0).1.length = 3 ∧
    (fetch_historical_draws envHistOne 2 ⟨0⟩ rng0).1.length ≤ 2 := by
  exact ⟨(c2_amended_theorem envAllRaise 3 ⟨0⟩ rng0).1 (by decide),
    (c2_amended_theorem envHistOne 2 ⟨0⟩ rng0).2 (by decide)⟩

/-- C3 counterexample: a powerball.com main page whose date matches no
format still yields a Draw, silently dated with the current date, instead
of failing the parse. -/
theorem c3_counterexample :
    parsePbDate "Notamonth 12, 2025" = none ∧
    (fetch_latest_draw envBadDate ⟨0⟩ rng0).1.source = "powerball.com" ∧
    (fetch_latest_draw envBadDate ⟨0⟩ rng0).1.draw_date = "2026-10-12" ∧
    isoFmt envBadDate.today = "2026-10-12" := by
  exact ⟨by decide, by decide, by decide, by decide⟩

/-- C3 (amended): date handling differs per path — the powerball.com main
page silently defaults an unparseable (or missing) date to today's date
and still emits the Draw; the powerball.com history page, when its row
regex matched but every date format fails, never assigns `draw_date` and
escapes with an `UnboundLocalError`, emitting no draw; the ca_web path
keeps the raw unparsed text; the CA API path fails only on a '/'-date of
the wrong arity. -/
theorem c3_amended_theorem :
    (∀ (today : SimpleDate) (p : PbMainPage) (d : Draw),
      pbMainBody today p = some d →
      (∀ s, p.dateMatch = some s → parsePbDate s = none) →
      d.draw_date = isoFmt today) ∧
    (∀ (p : PbHistPage) (m : PbHistMatch),
      p.found = some m →
      parsePbDate m.dateStr = none →
      pbHistBody p = .exn) ∧
    (∀ (p : CaWebPage) (d : Draw),
      caWebBody p = .ok (some d) →
      parseLongDateA (p.dateText.getD "Unknown Date") = none →
      d.draw_date = p.dateText.getD "Unknown Date") ∧
    (∀ s : String,
      strContains s "T" = false →
      strContains s "/" = true →
      (splitStr "/" s).length ≠ 3 →
      normCaDate s = none) := by
  refine ⟨?_, ?_, ?_, ?_⟩
  · intro today p d h hdate
    have hd : d.draw_date = pbMainDate today p := by
      unfold pbMainBody at h
      split at h
      · injection h with h2; subst h2; rfl
      · exact Option.noConfusion h
    rw [hd]
    unfold pbMainDate
    cases hm : p.dateMatch with
    | none => rfl
    | some s =>
      dsimp only
      rw [hdate s hm]
  · intro p m hm hdate
    unfold pbHistBody
    rw [hm]
    dsimp only
    rw [hdate]
  · intro p d h hdate
    have hd : d.draw_date = caWebDate p := by
      unfold caWebBody at h
      repeat' split at h
      all_goals try exact PyResult.noConfusion h
      all_goals try (injection h with h2; exact Option.noConfusion h2)
      injection h with h2
      injection h2 with h3
      subst h3
      rfl
    rw [hd]
    unfold caWebDate
    rw [hdate]
  · intro s hT hS hlen
    unfold normCaDate
    simp only [hT, hS]
    simp only [Bool.false_eq_true, if_false, if_true]
    split
    · rename_i m dd y heq
      exact absurd (by rw [heq]; rfl : (splitStr "/" s).length = 3) hlen
    · rfl

/-- C3 witness: the concrete unparseable-date main page gets today's date,
and the concrete unparseable-date history page escapes with an exception. -/
theorem c3_amended_witness :
    (pbMainBody ⟨2026, 10, 12⟩ pageBadDate).map Draw.draw_date = some "2026-10-12" ∧
    pbHistBody histPageBadDate = .exn := by
  constructor
  · have h : pbMainBody ⟨2026, 10, 12⟩ pageBadDate = some c3Draw := by rfl
    have hd := c3_amended_theorem.1 ⟨2026, 10, 12⟩ pageBadDate c3Draw h
      (fun s hs => by
        have h2 : some "Notamonth 12, 2025" = some s := hs
        injection h2 with h3
        rw [← h3]
        decide)
    rw [h]
    show some c3Draw.draw_date = some "2026-10-12"
    rw [hd]
    rfl
  · exact c3_amended_theorem.2.1 histPageBadDate
      ⟨"Notamonth 12, 2025", some 7, 1, 2, 3, 4, 5, 6⟩ rfl (by decide)

/-- C4 counterexample: with high-water mark 105, the powerball.com main
page path overwrites an explicitly supplied draw number 900 with 106. -/
theorem c4_counterexample :
    pageNum900.drawNumMatch = some 900 ∧
    (fetch_latest_draw envNum900 ⟨105⟩ rng0).1.draw_number = 106 ∧
    (106 : Int) ≠ 900 := by
  exact ⟨by decide, by decide, by decide⟩

/-- C4 (amended): numbers from the CA API and CA web paths are returned
unchanged, and a history-page number is patched to `latest + 1` only when
missing (zero); but on the powerball.com main-page path the number is
unconditionally replaced with `latest + 1` whenever a high-water mark
exists, even when the source supplied one. -/
theorem c4_amended_theorem :
    (∀ (env : Env) (st : ScraperState) (rng : Rng) (d : Draw),
      (fetchFromCaApi env).2 = .ok (some d) →
      (fetch_latest_draw env st rng).1 = d) ∧
    (∀ (env : Env) (st : ScraperState) (rng : Rng) (d : Draw),
      isDrawResult (fetchFromCaApi env).2 = false →
      (fetchFromCaWeb env).2 = .ok (some d) →
      (fetch_latest_draw env st rng).1 = d) ∧
    (∀ (env : Env) (st : ScraperState) (rng : Rng) (d : Draw),
      isDrawResult (fetchFromCaApi env).2 = false →
      isDrawResult (fetchFromCaWeb env).2 = false →
      (fetchFromPbMain env).2 = .ok (some d) →
      (fetch_latest_draw env st rng).1 =
        (if 0 < st.latest_draw_number then
          { d with draw_number := st.latest_draw_number + 1 }
        else d)) ∧
    (∀ (env : Env) (st : ScraperState) (rng : Rng) (d : Draw),
      isDrawResult (fetchFromCaApi env).2 = false →
      isDrawResult (fetchFromCaWeb env).2 = false →
      (fetchFromPbMain env).2 = .ok none →
      (fetchFromPbHist env).2 = .ok (some d) →
      (fetch_latest_draw env st rng).1 =
        (if 0 < st.latest_draw_number ∧ d.draw_number = 0 then
          { d with draw_number := st.latest_draw_number + 1 }
        else d)) := by
  refine ⟨?_, ?_, ?_, ?_⟩
  · intro env st rng d h
    exact caApiStage_success h
  · intro env st rng d h1 h2
    unfold fetch_latest_draw
    rw [caApiStage_fall st rng {} h1]
    exact caWebStage_success h2
  · intro env st rng d h1 h2 h3
    unfold fetch_latest_draw
    rw [caApiStage_fall st rng {} h1, caWebStage_fall st rng _ h2]
    exact pbStage_main_success h3
  · intro env st rng d h1 h2 h3 h4
    unfold fetch_latest_draw
    rw [caApiStage_fall st rng {} h1, caWebStage_fall st rng _ h2]
    exact pbStage_hist_success h3 h4

/-- C4 witness: the concrete supplied-number 900 is replaced by 106. -/
theorem c4_amended_witness :
    (fetch_latest_draw envNum900 ⟨105⟩ rng0).1.draw_number = 106 := by
  have h : (fetchFromPbMain envNum900).2 = .ok (some c4Draw) := by rfl
  rw [c4_amended_theorem.2.2.1 envNum900 ⟨105⟩ rng0 c4Draw (by decide) (by decide) h]
  rw [if_pos (by decide)]
  rfl

/-- C8 counterexample: with a small positive high-water mark (5) and every
real source failing, `fetch_historical_draws 10` returns 10 mock draws but
the seventh has `draw_number = 0`, violating the `draw_number > 0`
invariant the claim asserts for each draw. -/
theorem c8_counterexample :
    allRealSourcesFail envAllRaise 10 ∧
    (fetch_historical_draws envAllRaise 10 ⟨5⟩ rng0).1.length = 10 ∧
    ∃ d ∈ (fetch_historical_draws envAllRaise 10 ⟨5⟩ rng0).1,
      d.source = "mock_data" ∧ ¬0 < d.draw_number := by
  refine ⟨by decide, by decide,
    (fetch_historical_draws envAllRaise 10 ⟨5⟩ rng0).1.get ⟨6, by decide⟩,
    List.get_mem _ _ _, by decide, by decide⟩

/-- C8 (amended): when every real source fails, `fetch_historical_draws 10`
returns exactly 10 draws tagged `mock_data`, each satisfying the full Draw
invariants, PROVIDED the entering high-water mark is 0 or at least 9 (a
mark in 1..8 yields non-positive draw numbers in the tail of the batch). -/
theorem c8_amended_theorem :
    ∀ (env : Env) (st : ScraperState) (rng : Rng),
      validDate env.today →
      allRealSourcesFail env 10 →
      (st.latest_draw_number = 0 ∨ 9 ≤ st.latest_draw_number) →
      (fetch_historical_draws env 10 st rng).1.length = 10 ∧
      ∀ d ∈ (fetch_historical_draws env 10 st rng).1,
        d.source = "mock_data" ∧ drawInvariant d := by
  intro env st rng hvalid hfail hst
  obtain ⟨hfailL, hfailH⟩ := hfail
  rw [fetch_historical_fallback st rng hfailH, histFallback_mock 10 st rng hfailL]
  set L := (mockStage env st rng ({} : FetchLog)).2.1.latest_draw_number with hL
  have hLpos : 0 < L := mockStage_state_pos env st rng {}
  have hL10 : 10 ≤ L := by
    obtain ⟨hpos, hneg, hmax, _⟩ := mockStage_number env st rng ({} : FetchLog)
    rcases hst with h0 | h9
    · have hnlt : ¬0 < st.latest_draw_number := by omega
      obtain ⟨hge, _⟩ := hneg hnlt
      rw [hL, hmax]
      omega
    · rw [hL, hmax, hpos (by omega)]
      omega
  unfold generate_mock_historical_draws
  rw [if_pos hLpos]
  constructor
  · rw [renumAux_length, mockHistAux_length]
  · intro d hd
    obtain ⟨k, hk, d0, hd0, rfl⟩ := renumAux_mem _ _ _ _ hd
    rw [mockHistAux_length] at hk
    obtain ⟨hsrc, hlen, hnd, hmem, hpb1, hpb2, hdate, hjack, hwin, _⟩ :=
      mockHistAux_mem _ _ _ _ _ _ hd0
    refine ⟨hsrc, ⟨hlen, hnd, hmem, hpb1, hpb2⟩, ?_, hdate hvalid, hjack, hwin⟩
    show (0 : Int) < L - ((0 + k : Nat) : Int)
    omega

/-- C8 witness: a fresh scraper with all sources down gets an exact batch
of 10 invariant-satisfying mock draws. -/
theorem c8_amended_witness :
    (fetch_historical_draws envAllRaise 10 ⟨0⟩ rng0).1.length = 10 := by
  exact (c8_amended_theorem envAllRaise ⟨0⟩ rng0 (by decide) (by decide) (Or.inl rfl)).1

/-- C10 counterexample: with no known draw number and every source failing,
the first mock historical draw is NOT numbered 2000: the inner
`fetch_latest_draw` call first generates a mock latest draw (number 1000
under this oracle) and bumps the high-water mark, and the batch descends
from that value. -/
theorem c10_counterexample :
    allRealSourcesFail envAllRaise 1 ∧
    (fetch_historical_draws envAllRaise 1 ⟨0⟩ rng0).1.map (fun d => d.draw_number) =
      [1000] ∧
    (1000 : Int) ≠ 2000 := by
  exact ⟨by decide, by decide, by decide⟩

/-- C10 (amended): with `latest_draw_number = 0` and all real sources
failing, the mock batch is numbered consecutively descending from `r`, the
random number (uniform in [1000, 2000]) of the mock latest draw generated
by the inner `fetch_latest_draw` call — not from the constant 2000, which
is dead code on this path; since `r ≤ 2000`, any `count > 2000` still
yields a non-positive draw number. -/
theorem c10_amended_theorem :
    ∀ (env : Env) (count : Nat) (st : ScraperState) (rng : Rng),
      allRealSourcesFail env count →
      st.latest_draw_number = 0 →
      ∃ r : Int, 1000 ≤ r ∧ r ≤ 2000 ∧
        (fetch_historical_draws env count st rng).1.map (fun d => d.draw_number) =
          (List.range count).map (fun (k : Nat) => r - (k : Int)) ∧
        (2000 < count →
          ∃ d ∈ (fetch_historical_draws env count st rng).1, d.draw_number ≤ 0) := by
  intro env count st rng hfail h0
  obtain ⟨hfailL, hfailH⟩ := hfail
  have heq : fetch_historical_draws env count st rng = histFallback env count st rng :=
    fetch_historical_fallback st rng hfailH
  set L := (mockStage env st rng ({} : FetchLog)).2.1.latest_draw_number with hL
  have hLpos : 0 < L := mockStage_state_pos env st rng {}
  obtain ⟨hpos, hneg, hmax, _⟩ := mockStage_number env st rng ({} : FetchLog)
  have hbounds : 1000 ≤ L ∧ L ≤ 2000 := by
    have hnlt : ¬0 < st.latest_draw_number := by omega
    obtain ⟨hge, hle⟩ := hneg hnlt
    rw [hL, hmax]
    constructor
    · omega
    · omega
  have hmap : (fetch_historical_draws env count st rng).1.map (fun d => d.draw_number) =
      (List.range count).map (fun (k : Nat) => L - (k : Int)) := by
    rw [heq, histFallback_mock count st rng hfailL]
    unfold generate_mock_historical_draws
    rw [if_pos hLpos, renumAux_map_dn, mockHistAux_length]
    apply List.map_congr_left
    intro k _
    omega
  refine ⟨L, hbounds.1, hbounds.2, hmap, fun hcount => ?_⟩
  have hmem : L - ((2000 : Nat) : Int) ∈
      (fetch_historical_draws env count st rng).1.map (fun d => d.draw_number) := by
    rw [hmap]
    exact List.mem_map.mpr ⟨2000, List.mem_range.mpr hcount, rfl⟩
  obtain ⟨d, hd, hdn⟩ := List.mem_map.mp hmem
  refine ⟨d, hd, ?_⟩
  have h2000 : L ≤ 2000 := hbounds.2
  omega

/-- C10 witness: a concrete all-sources-down batch of one draw descends
from the mock latest number. -/
theorem c10_amended_witness :
    ∃ r : Int, 1000 ≤ r ∧ r ≤ 2000 ∧
      (fetch_historical_draws envAllRaise 1 ⟨0⟩ rng0).1.map (fun d => d.draw_number) =
        (List.range 1).map (fun (k : Nat) => r - (k : Int)) := by
  obtain ⟨r, h1, h2, h3, _⟩ :=
    c10_amended_theorem envAllRaise 1 ⟨0⟩ rng0 (by decide) rfl
  exact ⟨r, h1, h2, h3⟩

end Scraper
